import Mathlib

/-!
# Reliable transport over UDP: `UDPSocket` and `ClientUDP`

A shallow embedding of `src/engine/network/UDPSocket.cpp`, followed by one of the session logic
of `src/engine/network/ClientUDP.cpp`.

* Machine integers (`sf::Uint16`, `sf::Uint32`) are natural numbers; where the
  source lets a counter wrap, the reduction modulo `2 ^ 16` is written out.
* The non-blocking SFML socket is represented by what crosses it: the datagram
  (if any) that `_socket.receive` hands over, and the list of datagrams given
  to `_socket.send`, in order.
* `Time::time()` is a clock reading supplied to each operation; one operation sees one
  reading.
* `std::map` is an association list kept in ascending key order.
* The timeout callback is an argument of the maintenance step: `update` takes one that only
  answers, `updateWith` one that may act on the transport before it answers.
* An operation returns its new state together with the datagrams it wrote.
-/

namespace Shuter

/-- Clock readings (`Time::time()`), in ticks of the engine clock. -/
abbrev Time := Int

/-! ## `std::map` -/

/-- Keyed table with the interface of `std::map<Key, V>` for integer keys. -/
abbrev Map (V : Type) := List (Nat × V)

namespace Map

variable {V : Type}

/-- Lookup by key: the mapped value, when the key is present. -/
def find? (k : Nat) : Map V → Option V
  | [] => none
  | (k', v) :: rest => if k' = k then some v else find? k rest

/-- Number of entries under a key, as a truth value (`std::map::count`). -/
def count (k : Nat) (m : Map V) : Bool := (find? k m).isSome

/-- Position-preserving insertion of a key that is not yet present. -/
def insertSorted (k : Nat) (v : V) : Map V → Map V
  | [] => [(k, v)]
  | (k', v') :: rest =>
    if k < k' then (k, v) :: (k', v') :: rest else (k', v') :: insertSorted k v rest

/-- Insertion that keeps an existing entry (`std::map::insert`). -/
def insert (k : Nat) (v : V) (m : Map V) : Map V :=
  if count k m then m else insertSorted k v m

/-- Removal by key (`std::map::erase(key)`). -/
def erase (k : Nat) (m : Map V) : Map V := m.filter (fun e => !decide (e.1 = k))

/-- Assignment through subscript (`m[k] = v`): overwrite or create. -/
def assign (k : Nat) (v : V) (m : Map V) : Map V :=
  if count k m then m.map (fun e => if e.1 = k then (e.1, v) else e) else insertSorted k v m

end Map

/-! ## `MsgType` and `sf::Packet` -/

/-- Message kinds. `Other` holds a wire code outside the enumeration. -/
inductive MsgType where
  | Connect | Init | Disconnect | Confirm | ServerUpdate | NewClient | Custom | Error | Empty
  | Other (code : Nat)
  deriving DecidableEq, Repr

/-- Modelled from the spec: the numeric codes of `MsgType` live in `MsgType.h`, which is not
part of the sources at hand; the enumerators are numbered in the order in which the frame
format section lists them. No result below depends on the numbering. -/
def MsgType.toCode : MsgType → Nat
  | .Connect => 0 | .Init => 1 | .Disconnect => 2 | .Confirm => 3 | .ServerUpdate => 4
  | .NewClient => 5 | .Custom => 6 | .Error => 7 | .Empty => 8
  | .Other c => c

/-- Modelled from the spec: inverse of `MsgType.toCode` (the cast `(MsgType) code`). -/
def MsgType.ofCode (c : Nat) : MsgType :=
  if c = 0 then .Connect else if c = 1 then .Init else if c = 2 then .Disconnect
  else if c = 3 then .Confirm else if c = 4 then .ServerUpdate else if c = 5 then .NewClient
  else if c = 6 then .Custom else if c = 7 then .Error else if c = 8 then .Empty
  else .Other c

/-- The byte buffer of `sf::Packet`: payload, read cursor and validity flag. -/
structure Packet where
  data : List Nat
  readPos : Nat
  isValid : Bool
  deriving DecidableEq, Repr

namespace Packet

/-- A freshly constructed (or cleared) packet. -/
def empty : Packet := ⟨[], 0, true⟩

/-- The packet a successful socket read fills in. -/
def received (bytes : List Nat) : Packet := ⟨bytes, 0, true⟩

/-- Raw append of bytes (`Packet::append`). -/
def append (p : Packet) (bytes : List Nat) : Packet := { p with data := p.data ++ bytes }

/-- Insertion of an 8-bit value. -/
def writeUint8 (p : Packet) (v : Nat) : Packet := p.append [v % 256]

/-- Insertion of a 16-bit value, network byte order. -/
def writeUint16 (p : Packet) (v : Nat) : Packet := p.append [v / 256 % 256, v % 256]

/-- Insertion of a boolean, as one byte. -/
def writeBool (p : Packet) (b : Bool) : Packet := p.writeUint8 (if b then 1 else 0)

/-- Insertion of a message kind, as its 16-bit code. -/
def writeMsgType (p : Packet) (t : MsgType) : Packet := p.writeUint16 t.toCode

/-- The size check every extraction performs first; a failed check is sticky. -/
def checkSize (p : Packet) (n : Nat) : Bool := p.isValid && decide (p.readPos + n ≤ p.data.length)

/-- The byte at an absolute position of the payload. -/
def byteAt (p : Packet) (i : Nat) : Nat := p.data.getD i 0 % 256

/-- Extraction of an 8-bit value; on failure the target keeps its old value. -/
def readUint8 (p : Packet) (old : Nat) : Packet × Nat :=
  if p.checkSize 1 then ({ p with readPos := p.readPos + 1 }, p.byteAt p.readPos)
  else ({ p with isValid := false }, old)

/-- Extraction of a 16-bit value, network byte order. -/
def readUint16 (p : Packet) (old : Nat) : Packet × Nat :=
  if p.checkSize 2 then
    ({ p with readPos := p.readPos + 2 }, p.byteAt p.readPos * 256 + p.byteAt (p.readPos + 1))
  else ({ p with isValid := false }, old)

/-- Extraction of a boolean: one byte, compared with zero. -/
def readBool (p : Packet) (old : Bool) : Packet × Bool :=
  if p.checkSize 1 then ({ p with readPos := p.readPos + 1 }, decide (p.byteAt p.readPos ≠ 0))
  else ({ p with isValid := false }, old)

/-- Extraction of a message kind: a 16-bit code, cast to the enumeration. -/
def readMsgType (p : Packet) (old : MsgType) : Packet × MsgType :=
  if p.checkSize 2 then
    ({ p with readPos := p.readPos + 2 },
      MsgType.ofCode (p.byteAt p.readPos * 256 + p.byteAt (p.readPos + 1)))
  else ({ p with isValid := false }, old)

end Packet

/-- A datagram at the socket boundary: payload bytes and the remote endpoint. -/
structure Datagram where
  data : List Nat
  ip : Nat
  port : Nat
  deriving DecidableEq, Repr

/-- The decoded frame header together with the packet positioned after it. -/
structure Header where
  packet : Packet
  senderId : Nat
  reply : Bool
  msgId : Nat
  type : MsgType
  deriving DecidableEq, Repr

/-- The extraction chain `packet >> senderId >> reply >> msgId >> type` of `receive`, started
from the initial values the source gives the four targets. -/
def readHeader (p : Packet) : Header :=
  let r1 := p.readUint16 0
  let r2 := r1.1.readBool false
  let r3 := r2.1.readUint16 0
  let r4 := r3.1.readMsgType MsgType.Empty
  ⟨r4.1, r1.2, r2.2, r3.2, r4.2⟩

/-! ## Collaborators of the transport -/

/-- Failures that keep an operation from returning normally. -/
inductive Fault where
  | outOfRange
  | diverges
  deriving DecidableEq, Repr

/-- Configuration constants of `Consts.h` used by the transport. -/
structure Consts where
  NETWORK_MAX_CLIENTS : Nat
  NETWORK_TIMEOUT : Time
  deriving DecidableEq, Repr

/-- Modelled from the spec: the connection record `UDPConnection` (its class is not part of
the sources at hand): identity, address, and the time of the last authenticated datagram. -/
structure UDPConnection where
  id : Nat
  ip : Nat
  port : Nat
  lastMsg : Time
  deriving DecidableEq, Repr

namespace UDPConnection

/-- Modelled from the spec: the constructor `UDPConnection(id, ip, port)`; a record starts its
liveness window at the moment it is created. -/
def new (id ip port : Nat) (now : Time) : UDPConnection := ⟨id, ip, port, now⟩

/-- Modelled from the spec: `UDPConnection::same`, address equality (host and port). -/
def same (c : UDPConnection) (ip port : Nat) : Bool := decide (c.ip = ip) && decide (c.port = port)

/-- Modelled from the spec: `UDPConnection::update`, the liveness refresh. -/
def update (c : UDPConnection) (now : Time) : UDPConnection := { c with lastMsg := now }

/-- Modelled from the spec: `UDPConnection::timeout`, silence longer than the liveness
timeout. -/
def timeout (c : UDPConnection) (env : Consts) (now : Time) : Bool :=
  decide (now - c.lastMsg > env.NETWORK_TIMEOUT)

/-- Modelled from the spec: `UDPConnection::send`, the packet goes to the stored address. -/
def send (c : UDPConnection) (packet : Packet) : Datagram := ⟨packet.data, c.ip, c.port⟩

end UDPConnection

/-- Modelled from the spec: an in-flight reliable message `ReliableMsg` (its class is not part
of the sources at hand): the framed bytes, the destination, and the retransmission state
(last-sent time and attempt count). -/
structure ReliableMsg where
  packet : Packet
  ip : Nat
  port : Nat
  lastSent : Option Time
  attempts : Nat
  deriving DecidableEq, Repr

/-- Modelled from the spec: the constructor `ReliableMsg(packet, ip, port)`. It is given no
socket, so constructing a message transmits nothing. -/
def ReliableMsg.new (packet : Packet) (ip port : Nat) : ReliableMsg := ⟨packet, ip, port, none, 0⟩

/-- What the resend policy decides for one message at one tick. -/
inductive Verdict where
  | exhausted
  | wait
  | resend
  deriving DecidableEq, Repr

/-- The resend cadence and attempt limit, which the spec leaves open. -/
abbrev Policy := Time → ReliableMsg → Verdict

/-- Modelled from the spec: `ReliableMsg::trySend`. It reports `false` once the policy is
exhausted; otherwise it reports `true`, after resending when the cadence says so. -/
def ReliableMsg.trySend (policy : Policy) (now : Time) (m : ReliableMsg) :
    Bool × ReliableMsg × List Datagram :=
  match policy now m with
  | .exhausted => (false, m, [])
  | .wait => (true, m, [])
  | .resend =>
    (true, { m with lastSent := some now, attempts := m.attempts + 1 }, [⟨m.packet.data, m.ip, m.port⟩])

/-! ## The transport state -/

/-- The data members of `UDPSocket`. -/
structure UDPSocket where
  connections : Map UDPConnection
  relyPackets : Map ReliableMsg
  confirmTimes : Map Time
  ownId : Nat
  nextRelyMsgId : Nat
  deriving DecidableEq, Repr

namespace UDPSocket

/-- The constructor: no peers, nothing in flight, identity unassigned. -/
def init : UDPSocket := ⟨[], [], [], 0, 0⟩

/-- The member function `addConnection`. -/
def addConnection (s : UDPSocket) (id ip port : Nat) (now : Time) : UDPSocket :=
  { s with connections := Map.insert id (UDPConnection.new id ip port now) s.connections }

/-- The member function `removeConnection`. -/
def removeConnection (s : UDPSocket) (id : Nat) : UDPSocket :=
  { s with connections := Map.erase id s.connections }

/-- The member function `setId`. -/
def setId (s : UDPSocket) (id : Nat) : UDPSocket := { s with ownId := id }

/-- The frame `sendRely` builds: header `(ownId, true, nextRelyMsgId)` followed by the whole
body. -/
def relyFrame (s : UDPSocket) (packet : Packet) : Packet :=
  (((Packet.empty.writeUint16 s.ownId).writeBool true).writeUint16 s.nextRelyMsgId).append
    packet.data

/-- The member function `sendRely(packet, ip, port)`: the frame is entered in the
retransmission queue under the current counter value and the 16-bit counter is advanced.
Returns the new state and the datagrams written to the socket. -/
def sendRely (s : UDPSocket) (packet : Packet) (ip port : Nat) : UDPSocket × List Datagram :=
  ({ s with
      relyPackets :=
        Map.insert s.nextRelyMsgId (ReliableMsg.new (s.relyFrame packet) ip port) s.relyPackets
      nextRelyMsgId := (s.nextRelyMsgId + 1) % 65536 }, [])

/-- The member function `sendRely(packet, id)`: nothing happens for an unknown peer. -/
def sendRelyTo (s : UDPSocket) (packet : Packet) (id : Nat) : UDPSocket × List Datagram :=
  match Map.find? id s.connections with
  | none => (s, [])
  | some c => s.sendRely packet c.ip c.port

/-- The frame `send` builds: header `(ownId, false, 0)` followed by the whole body. -/
def plainFrame (s : UDPSocket) (packet : Packet) : Packet :=
  (((Packet.empty.writeUint16 s.ownId).writeBool false).writeUint16 0).append packet.data

/-- The member function `send(packet, ip, port)`: one datagram, written at once. -/
def send (s : UDPSocket) (packet : Packet) (ip port : Nat) : List Datagram :=
  [⟨(s.plainFrame packet).data, ip, port⟩]

/-- The member function `send(packet, id)`: nothing is written for an unknown peer. -/
def sendTo (s : UDPSocket) (packet : Packet) (id : Nat) : List Datagram :=
  match Map.find? id s.connections with
  | none => []
  | some c => s.send packet c.ip c.port

/-- The acknowledgement `confirmed` builds: `(ownId, false, msgId, Confirm)`. -/
def confirmPacket (s : UDPSocket) (msgId : Nat) : Packet :=
  (((Packet.empty.writeUint16 s.ownId).writeBool false).writeUint16 msgId).writeMsgType
    MsgType.Confirm

/-- The 32-bit key of the dedup ledger. -/
def confirmId (senderId msgId : Nat) : Nat := ((senderId <<< 16) % 2 ^ 32) ||| msgId

/-- The member function `confirmed`: acknowledge to the stored address of `senderId`, then
stamp the pair in the ledger; reports whether the pair was there already. The keyed lookup
`_connections.at(senderId)` fails for an unknown id. -/
def confirmed (s : UDPSocket) (now : Time) (msgId senderId : Nat) :
    Except Fault (Bool × UDPSocket × List Datagram) :=
  match Map.find? senderId s.connections with
  | none => .error .outOfRange
  | some c =>
    .ok (Map.count (confirmId senderId msgId) s.confirmTimes,
      { s with confirmTimes := Map.assign (confirmId senderId msgId) now s.confirmTimes },
      [c.send (s.confirmPacket msgId)])

/-! ## Teardown, maintenance and reception -/

/-- The packet `unbind` broadcasts: `Disconnect` followed by the own id. -/
def disconnectPacket (s : UDPSocket) : Packet :=
  (Packet.empty.writeMsgType MsgType.Disconnect).writeUint16 s.ownId

/-- The broadcast loop of `unbind` over the entries still in the table: send to the first
entry by id, erase it, go on with the rest. -/
def unbindLoop (s : UDPSocket) (packet : Packet) : Map UDPConnection → List Datagram
  | [] => []
  | (id, c) :: rest =>
    ({ s with connections := (id, c) :: rest }).sendTo packet id ++ unbindLoop s packet rest

/-- The member function `unbind`: broadcast, then clear queue and ledger and reset the own id.
Unbinding the SFML socket itself leaves the state modelled here as it is. Returns the new state
and the datagrams written. -/
def unbind (s : UDPSocket) : UDPSocket × List Datagram :=
  (⟨[], [], [], 0, s.nextRelyMsgId⟩, unbindLoop s s.disconnectPacket s.connections)

/-- Outcome of the eviction loop of `update`. -/
structure Eviction where
  connections : Map UDPConnection
  calls : List Nat
  completed : Bool
  deriving DecidableEq, Repr

/-- The first loop of `update`. A connection that is not timed out is stepped over. For one
that is, the callback (when set) is asked first: on `false` the whole of `update` returns,
with this entry and the ones after it untouched; otherwise the entry is erased. `calls`
lists the ids handed to the callback, in order. -/
def evictLoop (env : Consts) (callback : Option (Nat → Bool)) (now : Time) :
    Map UDPConnection → Eviction
  | [] => ⟨[], [], true⟩
  | (id, c) :: rest =>
    if !c.timeout env now then
      let r := evictLoop env callback now rest
      ⟨(id, c) :: r.connections, r.calls, r.completed⟩
    else
      match callback with
      | some f =>
        if !f id then ⟨(id, c) :: rest, [id], false⟩
        else
          let r := evictLoop env callback now rest
          ⟨r.connections, id :: r.calls, r.completed⟩
      | none => evictLoop env callback now rest

/-- The second loop of `update`: one `trySend` per queued message; a message whose `trySend`
reports `false` is erased. -/
def resendLoop (policy : Policy) (now : Time) : Map ReliableMsg → Map ReliableMsg × List Datagram
  | [] => ([], [])
  | (id, m) :: rest =>
    let t := m.trySend policy now
    let r := resendLoop policy now rest
    if !t.1 then (r.1, t.2.2 ++ r.2) else ((id, t.2.1) :: r.1, t.2.2 ++ r.2)

/-- The third loop of `update`: ledger entries older than the timeout are erased. -/
def purgeLoop (env : Consts) (now : Time) (m : Map Time) : Map Time :=
  m.filter (fun e => !decide (now - e.2 > env.NETWORK_TIMEOUT))

/-- Outcome of `update`. -/
structure Updated where
  socket : UDPSocket
  sent : List Datagram
  calls : List Nat
  completed : Bool
  deriving DecidableEq, Repr

/-- The member function `update`, for a callback that only answers: it is unset, or it
reports `true` or `false` without acting on the transport. A callback that acts on the
transport before it answers (as the one `ClientUDP` installs does before it answers `false`)
is covered by `updateWith`, which agrees with this function on callbacks that only answer. -/
def update (env : Consts) (policy : Policy) (callback : Option (Nat → Bool)) (s : UDPSocket)
    (now : Time) : Updated :=
  let e := evictLoop env callback now s.connections
  if !e.completed then ⟨{ s with connections := e.connections }, [], e.calls, false⟩
  else
    let r := resendLoop policy now s.relyPackets
    ⟨{ s with
        connections := e.connections
        relyPackets := r.1
        confirmTimes := purgeLoop env now s.confirmTimes }, r.2, e.calls, true⟩

/-- The id search of the `Connect` branch: `for (tmp = 1; tmp <= MAX; tmp++)` over a 16-bit
counter, stopping at the first id without a connection. The table does not change while the
loop runs, so a run of `2 ^ 16` iterations without exit has come back to a counter value
already seen and never exits: `receive` supplies that many steps. -/
def findFreeId (env : Consts) (conns : Map UDPConnection) : Nat → Nat → Except Fault (Option Nat)
  | 0, _ => .error .diverges
  | fuel + 1, tmp =>
    if tmp ≤ env.NETWORK_MAX_CLIENTS then
      if !Map.count tmp conns then .ok (some tmp)
      else findFreeId env conns fuel ((tmp + 1) % 65536)
    else .ok none

/-- Outcome of `receive`: the returned kind, the new state, the two reference arguments and
the datagrams written to the socket. -/
structure Received where
  type : MsgType
  socket : UDPSocket
  packet : Packet
  senderId : Nat
  sent : List Datagram
  deriving DecidableEq, Repr

/-- The member function `receive`. `incoming` is what `_socket.receive` delivers (`none` when
the status is not `Done`); `senderId` is the caller's variable as passed in. The in-place
refresh `_connections.at(senderId).update()` is the assignment of the refreshed record under
the same key. -/
def receive (env : Consts) (s : UDPSocket) (now : Time) (incoming : Option Datagram)
    (senderId : Nat) : Except Fault Received :=
  match incoming with
  | none => .ok ⟨MsgType.Empty, s, Packet.empty, senderId, []⟩
  | some d =>
    let h := readHeader (Packet.received d.data)
    if !h.packet.isValid then .ok ⟨MsgType.Error, s, h.packet, h.senderId, []⟩
    else if h.type = MsgType.Connect then
      match List.find? (fun e => e.2.same d.ip d.port) s.connections with
      | some e =>
        match s.confirmed now h.msgId e.1 with
        | .error f => .error f
        | .ok r => .ok ⟨MsgType.Connect, r.2.1, h.packet, e.1, r.2.2⟩
      | none =>
        match findFreeId env s.connections 65536 1 with
        | .error f => .error f
        | .ok none => .ok ⟨MsgType.Error, s, h.packet, h.senderId, []⟩
        | .ok (some tmp) =>
          let s1 : UDPSocket :=
            { s with
              connections := Map.insert tmp (UDPConnection.new tmp d.ip d.port now) s.connections }
          match s1.confirmed now h.msgId tmp with
          | .error f => .error f
          | .ok r => .ok ⟨MsgType.Connect, r.2.1, h.packet, tmp, r.2.2⟩
    else if h.type = MsgType.Confirm then
      .ok ⟨MsgType.Empty, { s with relyPackets := Map.erase h.msgId s.relyPackets }, h.packet,
        h.senderId, []⟩
    else if h.type = MsgType.Init then
      let s1 : UDPSocket :=
        if !Map.count h.senderId s.connections then
          { s with
            connections :=
              Map.insert h.senderId (UDPConnection.new h.senderId d.ip d.port now) s.connections }
        else s
      match s1.confirmed now h.msgId h.senderId with
      | .error f => .error f
      | .ok r => .ok ⟨MsgType.Init, r.2.1, h.packet, h.senderId, r.2.2⟩
    else
      match Map.find? h.senderId s.connections with
      | none => .ok ⟨MsgType.Error, s, h.packet, h.senderId, []⟩
      | some c =>
        if !c.same d.ip d.port then .ok ⟨MsgType.Error, s, h.packet, h.senderId, []⟩
        else
          let s1 : UDPSocket :=
            { s with
              connections :=
                Map.assign h.senderId (c.update now) s.connections }
          if h.reply then
            match s1.confirmed now h.msgId h.senderId with
            | .error f => .error f
            | .ok r =>
              if r.1 then .ok ⟨MsgType.Empty, r.2.1, h.packet, h.senderId, r.2.2⟩
              else .ok ⟨h.type, r.2.1, h.packet, h.senderId, r.2.2⟩
          else .ok ⟨h.type, s1, h.packet, h.senderId, []⟩

end UDPSocket

namespace UDPSocket

/-! ## Traces -/

/-- What a timeout callback does when it is called: its answer, the transport as it leaves it,
and the datagrams it wrote meanwhile. -/
structure CallbackEffect where
  answer : Bool
  socket : UDPSocket
  sent : List Datagram
  deriving DecidableEq, Repr

/-- A timeout callback `std::function<bool(sf::Uint16)>`, called with an id on the transport it
is installed on. -/
abbrev Callback := Nat → UDPSocket → CallbackEffect

/-- The callback that only answers: it leaves the transport alone and writes nothing. -/
def Callback.ofAnswer (f : Nat → Bool) : Callback := fun id s => ⟨f id, s, []⟩

/-- Outcome of the eviction loop of `update` under a callback that may act on the transport. -/
structure EvictionWith where
  socket : UDPSocket
  sent : List Datagram
  calls : List Nat
  completed : Bool
  deriving DecidableEq, Repr

/-- The first loop of `update` under such a callback. `kept` holds the entries already stepped
over, the third argument the entries still ahead of the iterator; the callback sees the
transport with the table made of both. When the callback answers `false` the whole of `update`
returns, and the transport is whatever the callback has left. When it answers `true` the entry
is erased and the loop goes on with the other members as the callback left them; the callback
is then taken to have left the table alone, since erasing through an iterator it has
invalidated has no defined behaviour. -/
def evictLoopWith (env : Consts) (callback : Option Callback) (now : Time) :
    Map UDPConnection → UDPSocket → Map UDPConnection → EvictionWith
  | kept, s, [] => ⟨{ s with connections := kept }, [], [], true⟩
  | kept, s, (id, c) :: rest =>
    if !c.timeout env now then evictLoopWith env callback now (kept ++ [(id, c)]) s rest
    else
      match callback with
      | none => evictLoopWith env callback now kept s rest
      | some f =>
        let e := f id { s with connections := kept ++ (id, c) :: rest }
        if !e.answer then ⟨e.socket, e.sent, [id], false⟩
        else
          let r := evictLoopWith env callback now kept e.socket rest
          ⟨r.socket, e.sent ++ r.sent, id :: r.calls, r.completed⟩

/-- Outcome of the resend loop of `update`, with the calls of `trySend` it made: the id of the
message and the value `trySend` reported, in the order of the calls. -/
structure Resent where
  queue : Map ReliableMsg
  sent : List Datagram
  trySends : List (Nat × Bool)
  deriving DecidableEq, Repr

/-- The second loop of `update`, recording each call of `trySend` where it is made: the one call
per iteration yields the reported value, the message as the call leaves it and the datagrams
the call wrote. -/
def resendLoopWith (policy : Policy) (now : Time) : Map ReliableMsg → Resent
  | [] => ⟨[], [], []⟩
  | (id, m) :: rest =>
    let t := m.trySend policy now
    let r := resendLoopWith policy now rest
    if !t.1 then ⟨r.queue, t.2.2 ++ r.sent, (id, t.1) :: r.trySends⟩
    else ⟨(id, t.2.1) :: r.queue, t.2.2 ++ r.sent, (id, t.1) :: r.trySends⟩

/-- Outcome of `update` under a callback that may act on the transport. -/
structure UpdatedWith where
  socket : UDPSocket
  sent : List Datagram
  calls : List Nat
  trySends : List (Nat × Bool)
  completed : Bool
  deriving DecidableEq, Repr

/-- The member function `update` under a callback that may act on the transport. When the
first loop ends the update, neither the resend loop nor the purge of the ledger is reached. -/
def updateWith (env : Consts) (policy : Policy) (callback : Option Callback) (s : UDPSocket)
    (now : Time) : UpdatedWith :=
  let e := evictLoopWith env callback now [] s s.connections
  if !e.completed then ⟨e.socket, e.sent, e.calls, [], false⟩
  else
    let r := resendLoopWith policy now e.socket.relyPackets
    ⟨{ e.socket with
        relyPackets := r.queue
        confirmTimes := purgeLoop env now e.socket.confirmTimes },
      e.sent ++ r.sent, e.calls, r.trySends, true⟩

/-- The state after successive updates at the given clock readings, with no other operation in
between. -/
def ticksWith (env : Consts) (policy : Policy) (callback : Option Callback) :
    UDPSocket → List Time → UDPSocket
  | s, [] => s
  | s, now :: rest =>
    ticksWith env policy callback (updateWith env policy callback s now).socket rest

/-- The calls of `trySend` made over successive updates, in order. -/
def ticksTrySends (env : Consts) (policy : Policy) (callback : Option Callback) :
    UDPSocket → List Time → List (Nat × Bool)
  | _, [] => []
  | s, now :: rest =>
    (updateWith env policy callback s now).trySends ++
      ticksTrySends env policy callback (updateWith env policy callback s now).socket rest

/-! ## Concrete instances -/

/-- Configuration used in the concrete instances: two client slots, timeout of ten ticks. -/
def exampleConsts : Consts := ⟨2, 10⟩

/-- A transport with own id 7, one peer (id 1 at address 100:1), one message (id 5) in flight. -/
def exampleSocket : UDPSocket :=
  ⟨[(1, ⟨1, 100, 1, 0⟩)], [(5, ReliableMsg.new ⟨[0, 7, 1, 0, 5, 9], 0, true⟩ 100 1)], [], 7, 6⟩

/-- A transport whose two client slots are both taken. -/
def exampleFullSocket : UDPSocket :=
  ⟨[(1, ⟨1, 100, 1, 0⟩), (2, ⟨2, 100, 2, 0⟩)], [], [], 7, 0⟩

/-- A reliable `Connect` frame (sender 0, message id 5, two body bytes) from address 200:2. -/
def exampleConnect : Datagram := ⟨[0, 0, 1, 0, 5, 0, 0, 9, 9], 200, 2⟩



/-- A reliable `Custom` frame claiming sender 1 (message id 5), from the foreign address 200:2. -/
def exampleSpoofed : Datagram := ⟨[0, 1, 1, 0, 5, 0, 6, 9, 9], 200, 2⟩

/-- A `Confirm` frame claiming sender 1 and naming message id 5, from the foreign address 200:2. -/
def exampleForeignConfirm : Datagram := ⟨[0, 1, 0, 0, 5, 0, 3], 200, 2⟩

/-- A reliable `Init` frame claiming sender 1 (message id 5), from the foreign address 200:2. -/
def exampleForeignInit : Datagram := ⟨[0, 1, 1, 0, 5, 0, 1, 0, 4], 200, 2⟩

/-- A reliable `Connect` frame claiming sender 1 (message id 5), from the foreign address 200:2. -/
def exampleForeignConnect : Datagram := ⟨[0, 1, 1, 0, 5, 0, 0, 9, 9], 200, 2⟩

/-- A body of three bytes handed to `sendRely`. -/
def exampleBody : Packet := ⟨[1, 2, 3], 0, true⟩

/-- The example transport with its message-id counter at 5, the id of the message in flight. -/
def exampleCollidingSocket : UDPSocket := { exampleSocket with nextRelyMsgId := 5 }

/-- A transport whose only peer (id 1) has been silent since time 0, with a ledger entry
stamped at time 0 and one message (id 5) in flight. -/
def exampleStaleSocket : UDPSocket :=
  ⟨[(1, ⟨1, 100, 1, 0⟩)], [(5, ReliableMsg.new ⟨[0, 7, 1, 0, 5, 9], 0, true⟩ 100 1)],
    [(65541, 0)], 7, 6⟩

/-- A resend policy that sends a message once and gives up on it at the next tick. -/
def exampleOncePolicy : Policy := fun _ m => if m.attempts = 0 then Verdict.resend else Verdict.exhausted

/-- The example transport after its message 5 has been sent once, at time 4. -/
def exampleSentOnceSocket : UDPSocket :=
  ⟨[(1, ⟨1, 100, 1, 0⟩)], [(5, ⟨⟨[0, 7, 1, 0, 5, 9], 0, true⟩, 100, 1, some 4, 1⟩)], [], 7, 6⟩

/-- A resend policy that waits until time 10 and sends from then on. -/
def exampleLatePolicy : Policy := fun now _ => if now < 10 then Verdict.wait else Verdict.resend

end UDPSocket

/-! ## The client session: `ClientUDP`

A shallow embedding of `src/engine/network/ClientUDP.cpp`. The virtual handlers
(`processInit`, `processUpdate`, ...) are external; an operation returns the list of handler
calls it made, in order.
-/

/-- A call of one of the handlers a client session dispatches to. -/
inductive Handler where
  | processInit (packet : Packet)
  | processUpdate (packet : Packet)
  | processNewClient (packet : Packet)
  | processCustomPacket (packet : Packet)
  | processDisconnect (targetId : Nat)
  | processDisconnected
  deriving DecidableEq, Repr

/-- The data members of `ClientUDP` that the session logic reads and writes. -/
structure ClientUDP where
  socket : UDPSocket
  working : Bool
  lastBroadcast : Time
  ip : Nat
  port : Nat
  deriving DecidableEq, Repr

namespace ClientUDP

/-- The member function `connected`: the own id, read as a truth value. -/
def connected (c : ClientUDP) : Bool := decide (c.socket.ownId ≠ 0)

/-- The member function `isWorking`. -/
def isWorking (c : ClientUDP) : Bool := c.working

/-- Outcome of `disconnect`: the new session, the handler calls and the datagrams written. -/
structure Disconnected where
  client : ClientUDP
  handlers : List Handler
  sent : List Datagram
  deriving DecidableEq, Repr

/-- The member function `disconnect`: `send` of `Disconnect` with the own id to the server id,
then `unbind`, then the working flag is cleared and `processDisconnected` is called.
`serverId` is the constant `_serverId` of the socket, declared in a header that is not part of
the sources at hand. -/
def disconnect (serverId : Nat) (c : ClientUDP) : Disconnected :=
  let first := c.socket.sendTo c.socket.disconnectPacket serverId
  let u := c.socket.unbind
  ⟨{ c with socket := u.1, working := false }, [Handler.processDisconnected], first ++ u.2⟩

/-- The member function `timeout`, the callback the constructor installs on the socket. -/
def timeout (serverId : Nat) (c : ClientUDP) (id : Nat) : Bool × Disconnected :=
  if id ≠ serverId then (true, ⟨c, [], []⟩) else (false, disconnect serverId c)

/-- The callback the constructor installs on the socket, `[this](id) { return timeout(id); }`:
`timeout` run on the session that owns the transport. -/
def timeoutCallback (serverId : Nat) (c : ClientUDP) : UDPSocket.Callback :=
  fun id s =>
    ⟨(timeout serverId { c with socket := s } id).1,
      (timeout serverId { c with socket := s } id).2.client.socket,
      (timeout serverId { c with socket := s } id).2.sent⟩

/-- Outcome of `process`: the returned flag, the new session, the handler calls and the
datagrams written. -/
structure Processed where
  result : Bool
  client : ClientUDP
  handlers : List Handler
  sent : List Datagram
  deriving DecidableEq, Repr

/-- The member function `process`. `incoming` is what the socket delivers to `receive`;
`senderId` and `targetId` are the values the two uninitialised locals happen to hold. -/
def process (env : Consts) (serverId : Nat) (c : ClientUDP) (now : Time)
    (incoming : Option Datagram) (senderId targetId : Nat) : Except Fault Processed :=
  match UDPSocket.receive env c.socket now incoming senderId with
  | .error f => .error f
  | .ok r =>
    let c1 : ClientUDP := { c with socket := r.socket }
    if r.type = MsgType.Empty then .ok ⟨false, c1, [], r.sent⟩
    else if !c1.connected && decide (r.type ≠ MsgType.Init) then .ok ⟨true, c1, [], r.sent⟩
    else
      match r.type with
      | MsgType.Init =>
        let t := r.packet.readUint16 targetId
        if t.1.isValid then
          .ok ⟨true, { c1 with socket := c1.socket.setId t.2 }, [Handler.processInit t.1], r.sent⟩
        else .ok ⟨true, c1, [], r.sent⟩
      | MsgType.ServerUpdate => .ok ⟨true, c1, [Handler.processUpdate r.packet], r.sent⟩
      | MsgType.NewClient => .ok ⟨true, c1, [Handler.processNewClient r.packet], r.sent⟩
      | MsgType.Disconnect =>
        let t := r.packet.readUint16 targetId
        if t.2 = c1.socket.ownId then
          let q := disconnect serverId c1
          .ok ⟨true, q.client, q.handlers, r.sent ++ q.sent⟩
        else .ok ⟨true, c1, [Handler.processDisconnect t.2], r.sent⟩
      | MsgType.Custom => .ok ⟨true, c1, [Handler.processCustomPacket r.packet], r.sent⟩
      | MsgType.Error => .ok ⟨true, c1, [], r.sent⟩
      | _ => .ok ⟨true, c1, [], r.sent⟩

/-- Outcome of the drain loop: the new session, the datagrams still buffered in the socket, the
handler calls and the datagrams written. -/
structure Drained where
  client : ClientUDP
  pending : List Datagram
  handlers : List Handler
  sent : List Datagram
  deriving DecidableEq, Repr

/-- The loop `while (isWorking() && process()) {}` of `update`, run on the datagrams the socket
holds when the loop starts, oldest first. Each `process` takes the oldest datagram still
buffered, or finds the socket empty. -/
def drain (env : Consts) (serverId : Nat) (now : Time) (senderId targetId : Nat) :
    ClientUDP → List Datagram → Except Fault Drained
  | c, [] =>
    if !c.isWorking then .ok ⟨c, [], [], []⟩
    else
      match process env serverId c now none senderId targetId with
      | .error f => .error f
      | .ok p => .ok ⟨p.client, [], p.handlers, p.sent⟩
  | c, d :: rest =>
    if !c.isWorking then .ok ⟨c, d :: rest, [], []⟩
    else
      match process env serverId c now (some d) senderId targetId with
      | .error f => .error f
      | .ok p =>
        if !p.result then .ok ⟨p.client, rest, p.handlers, p.sent⟩
        else
          match drain env serverId now senderId targetId p.client rest with
          | .error f => .error f
          | .ok q => .ok ⟨q.client, q.pending, p.handlers ++ q.handlers, p.sent ++ q.sent⟩

/-! ### Concrete sessions -/

/-- A Connected session: own id 4, the server (id 0) at address 100:1, one message in flight. -/
def exampleClient : ClientUDP :=
  ⟨⟨[(0, ⟨0, 100, 1, 0⟩)], [(5, ReliableMsg.new ⟨[0, 4, 1, 0, 5, 9], 0, true⟩ 100 1)], [], 4, 6⟩,
    true, 0, 100, 1⟩

/-- A Connected session whose server (id 0) has been silent since time 0, with one message
(id 5) in flight and a ledger entry stamped at time 95. -/
def exampleStaleClient : ClientUDP :=
  ⟨⟨[(0, ⟨0, 100, 1, 0⟩)], [(5, ReliableMsg.new ⟨[0, 4, 1, 0, 5, 9], 0, true⟩ 100 1)],
      [(9, 95)], 4, 6⟩, true, 0, 100, 1⟩

/-- A Connecting session: no own id yet, the server (id 0) at address 100:1. -/
def exampleConnecting : ClientUDP :=
  ⟨⟨[(0, ⟨0, 100, 1, 0⟩)], [], [], 0, 1⟩, true, 0, 100, 1⟩

/-- An unreliable `Disconnect` frame from the server naming peer 9. -/
def examplePeerLeft : Datagram := ⟨[0, 0, 0, 0, 0, 0, 2, 0, 9], 100, 1⟩

/-- An unreliable `ServerUpdate` frame from the server with two body bytes. -/
def exampleServerUpdate : Datagram := ⟨[0, 0, 0, 0, 0, 0, 4, 8, 8], 100, 1⟩

/-- A `Confirm` frame from the server for message id 5. -/
def exampleServerConfirm : Datagram := ⟨[0, 0, 0, 0, 5, 0, 3], 100, 1⟩

/-- A reliable `Init` frame from the server (message id 1) assigning id 4, with one more byte. -/
def exampleInit : Datagram := ⟨[0, 0, 1, 0, 1, 0, 1, 0, 4, 7], 100, 1⟩

/-- A reliable `Init` frame from the server (message id 1) whose body is a single byte. -/
def exampleShortInit : Datagram := ⟨[0, 0, 1, 0, 1, 0, 1, 4], 100, 1⟩

end ClientUDP

/-! ## Lemmas on tables -/

namespace Map
variable {V : Type}

theorem count_eq_false_iff (k : Nat) (m : Map V) : count k m = false ↔ find? k m = none := by
  unfold count; cases find? k m <;> simp

theorem find?_insertSorted_ne (k j : Nat) (v : V) (m : Map V) (h : j ≠ k) :
    find? j (insertSorted k v m) = find? j m := by
  induction m with
  | nil => simp [insertSorted, find?, Ne.symm h]
  | cons e rest ih =>
    obtain ⟨k', v'⟩ := e
    by_cases hlt : k < k'
    · simp [insertSorted, hlt, find?, Ne.symm h]
    · simp [insertSorted, hlt, find?, ih]

theorem find?_insertSorted_self (k : Nat) (v : V) (m : Map V) (h : find? k m = none) :
    find? k (insertSorted k v m) = some v := by
  induction m with
  | nil => simp [insertSorted, find?]
  | cons e rest ih =>
    obtain ⟨k', v'⟩ := e
    by_cases hk : k' = k
    · simp [find?, hk] at h
    · simp only [find?, hk, if_false] at h
      by_cases hlt : k < k'
      · simp [insertSorted, hlt, find?]
      · simp [insertSorted, hlt, find?, hk, ih h]

theorem insertSorted_perm (k : Nat) (v : V) (m : Map V) :
    (insertSorted k v m).Perm ((k, v) :: m) := by
  induction m with
  | nil => simp [insertSorted]
  | cons e rest ih =>
    obtain ⟨k', v'⟩ := e
    by_cases hlt : k < k'
    · simp [insertSorted, hlt]
    · simp only [insertSorted, hlt, if_false]
      exact (List.Perm.cons _ ih).trans (List.Perm.swap _ _ _)

theorem find?_erase (k j : Nat) (m : Map V) :
    find? j (erase k m) = if j = k then none else find? j m := by
  induction m with
  | nil => simp [erase, find?]
  | cons e rest ih =>
    obtain ⟨k', v'⟩ := e
    unfold erase at ih ⊢
    by_cases hj : j = k
    · subst hj
      simp only [if_true] at ih
      by_cases hk : k' = j
      · simp [List.filter, hk, ih]
      · simp [List.filter, hk, find?, ih]
    · simp only [hj, if_false] at ih
      by_cases hk : k' = k
      · have : ¬ k = j := fun h => hj h.symm
        simp [List.filter, hk, ih, hj, find?, this]
      · simp [List.filter, hk, find?, ih, hj]

theorem erase_of_find?_none (k : Nat) (m : Map V) (h : find? k m = none) : erase k m = m := by
  induction m with
  | nil => rfl
  | cons e rest ih =>
    obtain ⟨k', v'⟩ := e
    by_cases hk : k' = k
    · simp [find?, hk] at h
    · simp only [find?, hk, if_false] at h
      have := ih h
      unfold erase at this ⊢
      simp [List.filter, hk, this]

theorem find?_assign_self (k : Nat) (v : V) (m : Map V) : find? k (assign k v m) = some v := by
  by_cases hc : count k m = true
  · simp only [assign, hc, if_true]
    unfold count at hc
    induction m with
    | nil => simp [find?] at hc
    | cons e rest ih =>
      obtain ⟨k', v'⟩ := e
      show find? k ((if k' = k then (k', v) else (k', v')) ::
        List.map (fun e => if e.1 = k then (e.1, v) else e) rest) = some v
      by_cases hk : k' = k
      · rw [if_pos hk]
        simp [find?, hk]
      · rw [if_neg hk]
        simp only [find?, hk, if_false] at hc ⊢
        exact ih hc
  · have hc' : count k m = false := by simpa using hc
    simp only [assign, hc']
    exact find?_insertSorted_self k v m ((count_eq_false_iff k m).1 hc')

theorem find?_filter_of_pos (p : Nat × V → Bool) (k : Nat) (v : V) (m : Map V)
    (h : find? k m = some v) (hp : p (k, v) = true) : find? k (m.filter p) = some v := by
  induction m with
  | nil => simp [find?] at h
  | cons e rest ih =>
    obtain ⟨k', v'⟩ := e
    by_cases hk : k' = k
    · simp only [find?, hk, if_true, Option.some.injEq] at h
      subst hk; subst h
      simp [List.filter, hp, find?]
    · simp only [find?, hk, if_false] at h
      cases hq : p (k', v') with
      | true => simp [List.filter, hq, find?, hk, ih h]
      | false => simp [List.filter, hq, ih h]

theorem find?_isSome_of_mem (m : Map V) (e : Nat × V) (h : e ∈ m) : ∃ v, find? e.1 m = some v := by
  induction m with
  | nil => simp at h
  | cons a rest ih =>
    obtain ⟨k', v'⟩ := a
    by_cases hk : k' = e.1
    · exact ⟨v', by simp [find?, hk]⟩
    · rcases List.mem_cons.1 h with rfl | h'
      · exact absurd rfl hk
      · obtain ⟨v, hv⟩ := ih h'
        exact ⟨v, by simp [find?, hk, hv]⟩

theorem find?_eq_none_iff (k : Nat) (m : Map V) : find? k m = none ↔ k ∉ m.map Prod.fst := by
  induction m with
  | nil => simp [find?]
  | cons a rest ih =>
    obtain ⟨k', v'⟩ := a
    by_cases hk : k' = k
    · simp [find?, hk]
    · have hk' : ¬ k = k' := fun h => hk h.symm
      simp [find?, hk, hk', ih]

theorem find?_of_mem_of_nodup (m : Map V) (k : Nat) (v : V) (hn : (m.map Prod.fst).Nodup)
    (h : (k, v) ∈ m) : find? k m = some v := by
  induction m with
  | nil => simp at h
  | cons a rest ih =>
    obtain ⟨k', v'⟩ := a
    simp only [List.map_cons, List.nodup_cons] at hn
    rcases List.mem_cons.1 h with heq | h'
    · cases heq
      simp [find?]
    · have hne : k' ≠ k := by
        rintro rfl
        exact hn.1 (List.mem_map.2 ⟨(k', v), h', rfl⟩)
      simp [find?, hne, ih hn.2 h']

theorem find?_insert_self (k : Nat) (v : V) (m : Map V) : ∃ w, find? k (insert k v m) = some w := by
  cases hc : find? k m with
  | none =>
    have hcount : count k m = false := (count_eq_false_iff k m).2 hc
    exact ⟨v, by simp only [insert, hcount]; exact find?_insertSorted_self k v m hc⟩
  | some w =>
    have hcount : count k m = true := by simp [count, hc]
    exact ⟨w, by simp [insert, hcount, hc]⟩

theorem find?_assign_ne (k j : Nat) (v : V) (m : Map V) (h : j ≠ k) :
    find? j (assign k v m) = find? j m := by
  by_cases hc : count k m = true
  · simp only [assign, hc, if_true]
    clear hc
    induction m with
    | nil => rfl
    | cons e rest ih =>
      obtain ⟨k', v'⟩ := e
      show find? j ((if k' = k then (k', v) else (k', v')) ::
        List.map (fun e => if e.1 = k then (e.1, v) else e) rest) = _
      by_cases hk : k' = k
      · have hj : ¬ k' = j := fun h' => h (h'.symm.trans hk)
        rw [if_pos hk]
        simp only [find?, hj, if_false]
        exact ih
      · rw [if_neg hk]
        by_cases hj : k' = j
        · simp [find?, hj]
        · simp only [find?, hj, if_false]
          exact ih
  · have hc' : count k m = false := by simpa using hc
    simp only [assign, hc']
    exact find?_insertSorted_ne k j v m h

end Map

namespace ClientUDP

/-! ## Lemmas on the callback of the client session -/

theorem timeoutCallback_true (serverId : Nat) (c : ClientUDP) (id : Nat) (t : UDPSocket)
    (h : (timeoutCallback serverId c id t).answer = true) :
    (timeoutCallback serverId c id t).socket = t := by
  by_cases hid : id = serverId
  · simp [timeoutCallback, timeout, hid] at h
  · simp [timeoutCallback, timeout, hid]

theorem timeoutCallback_false (serverId : Nat) (c : ClientUDP) (id : Nat) (t : UDPSocket)
    (h : (timeoutCallback serverId c id t).answer = false) :
    (timeoutCallback serverId c id t).socket = ⟨[], [], [], 0, t.nextRelyMsgId⟩ := by
  by_cases hid : id = serverId
  · simp [timeoutCallback, timeout, hid, disconnect, UDPSocket.unbind]
  · simp [timeoutCallback, timeout, hid] at h

end ClientUDP

namespace UDPSocket

/-! ## Lemmas on the loops of the transport -/

theorem findFreeId_least (env : Consts) (conns : Map UDPConnection) (fuel : Nat) :
    ∀ tmp i : Nat, tmp ≤ i → i ≤ env.NETWORK_MAX_CLIENTS → i < 65536 →
      Map.count i conns = false → i - tmp < fuel →
      ∃ id, findFreeId env conns fuel tmp = .ok (some id) ∧ tmp ≤ id ∧ id ≤ i ∧
        Map.count id conns = false ∧ ∀ j, tmp ≤ j → j < id → Map.count j conns = true := by
  induction fuel with
  | zero => intro tmp i _ _ _ _ h; omega
  | succ n ih =>
    intro tmp i h1 h2 h3 h4 h5
    have hle : tmp ≤ env.NETWORK_MAX_CLIENTS := le_trans h1 h2
    by_cases hc : Map.count tmp conns = true
    · have hne : tmp ≠ i := by
        rintro rfl
        rw [h4] at hc
        exact Bool.false_ne_true hc
      have hmod : (tmp + 1) % 65536 = tmp + 1 := Nat.mod_eq_of_lt (by omega)
      obtain ⟨id, e1, e2, e3, e4, e5⟩ := ih (tmp + 1) i (by omega) h2 h3 h4 (by omega)
      refine ⟨id, ?_, by omega, e3, e4, ?_⟩
      · simp [findFreeId, hle, hc, hmod, e1]
      · intro j hj1 hj2
        by_cases hj : j = tmp
        · rw [hj]; exact hc
        · exact e5 j (by omega) hj2
    · have hc' : Map.count tmp conns = false := by simpa using hc
      refine ⟨tmp, ?_, le_refl _, h1, hc', ?_⟩
      · simp [findFreeId, hle, hc']
      · intro j hj1 hj2; omega

theorem findFreeId_full (env : Consts) (conns : Map UDPConnection)
    (hmax : env.NETWORK_MAX_CLIENTS < 65535)
    (hfull : ∀ i, 1 ≤ i → i ≤ env.NETWORK_MAX_CLIENTS → Map.count i conns = true) (fuel : Nat) :
    ∀ tmp : Nat, 1 ≤ tmp → tmp ≤ env.NETWORK_MAX_CLIENTS + 1 →
      env.NETWORK_MAX_CLIENTS + 1 - tmp < fuel → findFreeId env conns fuel tmp = .ok none := by
  induction fuel with
  | zero => intro tmp _ _ h; omega
  | succ n ih =>
    intro tmp h1 h2 h3
    by_cases hle : tmp ≤ env.NETWORK_MAX_CLIENTS
    · have hmod : (tmp + 1) % 65536 = tmp + 1 := Nat.mod_eq_of_lt (by omega)
      simp [findFreeId, hle, hfull tmp h1 hle, hmod, ih (tmp + 1) (by omega) (by omega) (by omega)]
    · simp [findFreeId, hle]

theorem find?_none_of_forall {α : Type} (p : α → Bool) (l : List α) (h : ∀ e ∈ l, p e = false) :
    List.find? p l = none := by
  rw [List.find?_eq_none]
  intro x hx
  simp [h x hx]

theorem resendLoop_sends (policy : Policy) (now : Time) (q : Map ReliableMsg) (k : Nat)
    (m : ReliableMsg) (hq : Map.find? k q = some m) (hp : policy now m = Verdict.resend) :
    (⟨m.packet.data, m.ip, m.port⟩ : Datagram) ∈ (resendLoop policy now q).2 := by
  induction q with
  | nil => simp [Map.find?] at hq
  | cons e rest ih =>
    obtain ⟨k', m'⟩ := e
    by_cases hk : k' = k
    · simp only [Map.find?, hk, if_true, Option.some.injEq] at hq
      subst hq
      simp [resendLoop, ReliableMsg.trySend, hp]
    · simp only [Map.find?, hk, if_false] at hq
      have := ih hq
      simp only [resendLoop]
      split <;> simp [this]

theorem unbindLoop_eq_map (s : UDPSocket) (packet : Packet) (conns : Map UDPConnection) :
    unbindLoop s packet conns =
      conns.map (fun e => (⟨(s.plainFrame packet).data, e.2.ip, e.2.port⟩ : Datagram)) := by
  induction conns with
  | nil => rfl
  | cons e rest ih =>
    obtain ⟨id, c⟩ := e
    simp [unbindLoop, sendTo, Map.find?, send, ih, plainFrame]

theorem disconnectFrame_data (s : UDPSocket) :
    (s.plainFrame s.disconnectPacket).data =
      [s.ownId / 256 % 256, s.ownId % 256, 0, 0, 0,
        MsgType.Disconnect.toCode / 256 % 256, MsgType.Disconnect.toCode % 256,
        s.ownId / 256 % 256, s.ownId % 256] := by
  simp [plainFrame, disconnectPacket, Packet.writeUint16, Packet.writeBool, Packet.writeUint8,
    Packet.writeMsgType, Packet.append, Packet.empty]

theorem update_of_completed (env : Consts) (policy : Policy) (callback : Option (Nat → Bool))
    (s : UDPSocket) (now : Time)
    (h : (evictLoop env callback now s.connections).completed = true) :
    update env policy callback s now =
      ⟨{ s with
          connections := (evictLoop env callback now s.connections).connections
          relyPackets := (resendLoop policy now s.relyPackets).1
          confirmTimes := purgeLoop env now s.confirmTimes },
        (resendLoop policy now s.relyPackets).2,
        (evictLoop env callback now s.connections).calls, true⟩ := by
  simp [update, h]

theorem update_of_stopped (env : Consts) (policy : Policy) (callback : Option (Nat → Bool))
    (s : UDPSocket) (now : Time)
    (h : (evictLoop env callback now s.connections).completed = false) :
    update env policy callback s now =
      ⟨{ s with connections := (evictLoop env callback now s.connections).connections },
        [], (evictLoop env callback now s.connections).calls, false⟩ := by
  simp [update, h]

theorem update_completed (env : Consts) (policy : Policy) (callback : Option (Nat → Bool))
    (s : UDPSocket) (now : Time) :
    (update env policy callback s now).completed =
      (evictLoop env callback now s.connections).completed := by
  cases h : (evictLoop env callback now s.connections).completed
  · rw [update_of_stopped env policy callback s now h]
  · rw [update_of_completed env policy callback s now h]

theorem resendLoop_mem (policy : Policy) (now : Time) (q : Map ReliableMsg) (k : Nat)
    (m' : ReliableMsg) (h : (k, m') ∈ (resendLoop policy now q).1) :
    ∃ m, (k, m) ∈ q ∧ (m.trySend policy now).1 = true ∧ m' = (m.trySend policy now).2.1 := by
  induction q with
  | nil => simp [resendLoop] at h
  | cons e rest ih =>
    obtain ⟨id, m⟩ := e
    cases ht : (m.trySend policy now).1 with
    | false =>
      simp only [resendLoop, ht, Bool.not_false, if_true] at h
      obtain ⟨m0, h1, h2, h3⟩ := ih h
      exact ⟨m0, List.mem_cons_of_mem _ h1, h2, h3⟩
    | true =>
      simp only [resendLoop, ht, Bool.not_true, Bool.false_eq_true, if_false] at h
      rcases List.mem_cons.1 h with heq | h'
      · cases heq
        exact ⟨m, List.mem_cons_self _ _, ht, rfl⟩
      · obtain ⟨m0, h1, h2, h3⟩ := ih h'
        exact ⟨m0, List.mem_cons_of_mem _ h1, h2, h3⟩

theorem resendLoop_keeps (policy : Policy) (now : Time) (q : Map ReliableMsg) (k : Nat)
    (m : ReliableMsg) (h : (k, m) ∈ q) (ht : (m.trySend policy now).1 = true) :
    (k, (m.trySend policy now).2.1) ∈ (resendLoop policy now q).1 := by
  induction q with
  | nil => simp at h
  | cons e rest ih =>
    obtain ⟨id, m0⟩ := e
    rcases List.mem_cons.1 h with heq | h'
    · cases heq
      simp [resendLoop, ht]
    · cases ht0 : (m0.trySend policy now).1 with
      | false => simpa [resendLoop, ht0] using ih h'
      | true => simpa [resendLoop, ht0] using Or.inr (ih h')

theorem resendLoop_keys_sublist (policy : Policy) (now : Time) (q : Map ReliableMsg) :
    ((resendLoop policy now q).1.map Prod.fst).Sublist (q.map Prod.fst) := by
  induction q with
  | nil => simp [resendLoop]
  | cons e rest ih =>
    obtain ⟨id, m⟩ := e
    cases ht : (m.trySend policy now).1 with
    | false => simpa [resendLoop, ht] using List.Sublist.cons id ih
    | true => simpa [resendLoop, ht] using ih

theorem update_queue_keys (env : Consts) (policy : Policy) (callback : Option (Nat → Bool))
    (s : UDPSocket) (now : Time) (k : Nat)
    (h : k ∈ (update env policy callback s now).socket.relyPackets.map Prod.fst) :
    k ∈ s.relyPackets.map Prod.fst := by
  by_cases hd : (evictLoop env callback now s.connections).completed = true
  · have hq : (update env policy callback s now).socket.relyPackets =
        (resendLoop policy now s.relyPackets).1 := by simp [update, hd]
    rw [hq] at h
    exact (resendLoop_keys_sublist policy now s.relyPackets).subset h
  · have hq : (update env policy callback s now).socket.relyPackets = s.relyPackets := by
      simp [update, hd]
    rwa [hq] at h

theorem findFreeId_not_outOfRange (env : Consts) (conns : Map UDPConnection) (fuel : Nat) :
    ∀ tmp, findFreeId env conns fuel tmp ≠ .error Fault.outOfRange := by
  induction fuel with
  | zero => intro tmp; simp [findFreeId]
  | succ n ih =>
    intro tmp
    unfold findFreeId
    split
    · split
      · simp
      · exact ih _
    · simp

theorem findFreeId_returns (env : Consts) (conns : Map UDPConnection)
    (hmax : env.NETWORK_MAX_CLIENTS < 65535) (fuel : Nat) :
    ∀ tmp, tmp ≤ env.NETWORK_MAX_CLIENTS + 1 → env.NETWORK_MAX_CLIENTS + 1 - tmp < fuel →
      ∃ o, findFreeId env conns fuel tmp = .ok o := by
  induction fuel with
  | zero => intro tmp _ h; omega
  | succ n ih =>
    intro tmp h1 h2
    by_cases hle : tmp ≤ env.NETWORK_MAX_CLIENTS
    · by_cases hc : Map.count tmp conns = true
      · have hmod : (tmp + 1) % 65536 = tmp + 1 := Nat.mod_eq_of_lt (by omega)
        obtain ⟨o, ho⟩ := ih (tmp + 1) (by omega) (by omega)
        exact ⟨o, by simp [findFreeId, hle, hc, hmod, ho]⟩
      · exact ⟨some tmp, by simp [findFreeId, hle, hc]⟩
    · exact ⟨none, by simp [findFreeId, hle]⟩

theorem isOk_iff {α : Type} (e : Except Fault α) : e.isOk = true ↔ ∃ r, e = .ok r := by
  cases e <;> simp [Except.isOk, Except.toBool]

theorem confirmed_of_known (s : UDPSocket) (now : Time) (msgId senderId : Nat)
    (c : UDPConnection) (h : Map.find? senderId s.connections = some c) :
    ∃ r, confirmed s now msgId senderId = .ok r := by
  simp [confirmed, h]

/-- Every run of `receive` either returns, or is the id search of the `Connect` branch running
forever; the keyed lookups never fail. -/
theorem receive_returns_or_search_diverges (env : Consts) (s : UDPSocket) (now : Time)
    (incoming : Option Datagram) (senderId : Nat) :
    (receive env s now incoming senderId).isOk = true ∨
    (receive env s now incoming senderId = .error Fault.diverges ∧
      findFreeId env s.connections 65536 1 = .error Fault.diverges) := by
  cases incoming with
  | none => exact Or.inl rfl
  | some d =>
    by_cases hvalid : (readHeader (Packet.received d.data)).packet.isValid = true
    · by_cases hconnect : (readHeader (Packet.received d.data)).type = MsgType.Connect
      · cases hscan : List.find? (fun e => e.2.same d.ip d.port) s.connections with
        | some e =>
          obtain ⟨c, hc⟩ := Map.find?_isSome_of_mem s.connections e (List.mem_of_find?_eq_some hscan)
          obtain ⟨r, hr⟩ := confirmed_of_known s now (readHeader (Packet.received d.data)).msgId
            e.1 c hc
          exact Or.inl (by
                simp [receive, hvalid, hconnect, hscan, hr, Except.isOk, Except.toBool])
        | none =>
          cases hfree : findFreeId env s.connections 65536 1 with
          | error f =>
            cases f with
            | outOfRange => exact absurd hfree (findFreeId_not_outOfRange env _ _ _)
            | diverges =>
              exact Or.inr ⟨by simp [receive, hvalid, hconnect, hscan, hfree], rfl⟩
          | ok o =>
            cases o with
            | none => exact Or.inl (by
                simp [receive, hvalid, hconnect, hscan, hfree, Except.isOk, Except.toBool])
            | some tmp =>
              obtain ⟨c, hc⟩ := Map.find?_insert_self tmp (UDPConnection.new tmp d.ip d.port now)
                s.connections
              obtain ⟨r, hr⟩ := confirmed_of_known
                ({ s with connections :=
                    Map.insert tmp (UDPConnection.new tmp d.ip d.port now) s.connections } :
                  UDPSocket)
                now (readHeader (Packet.received d.data)).msgId tmp c hc
              exact Or.inl (by
                simp [receive, hvalid, hconnect, hscan, hfree, hr, Except.isOk, Except.toBool])
      · by_cases hconfirm : (readHeader (Packet.received d.data)).type = MsgType.Confirm
        · exact Or.inl (by
                simp [receive, hvalid, hconnect, hconfirm, Except.isOk, Except.toBool])
        · by_cases hinit : (readHeader (Packet.received d.data)).type = MsgType.Init
          · cases hc : Map.find? (readHeader (Packet.received d.data)).senderId s.connections with
            | none =>
              have hcount := (Map.count_eq_false_iff _ _).2 hc
              obtain ⟨c, hc'⟩ := Map.find?_insert_self (readHeader (Packet.received d.data)).senderId
                (UDPConnection.new (readHeader (Packet.received d.data)).senderId d.ip d.port now)
                s.connections
              obtain ⟨r, hr⟩ := confirmed_of_known
                ({ s with
                    connections :=
                      Map.insert (readHeader (Packet.received d.data)).senderId
                        (UDPConnection.new (readHeader (Packet.received d.data)).senderId d.ip
                          d.port now) s.connections } : UDPSocket)
                now (readHeader (Packet.received d.data)).msgId _ c hc'
              exact Or.inl (by
                simp [receive, hvalid, hconnect, hconfirm, hinit, hcount, hr, Except.isOk, Except.toBool])
            | some c =>
              have hcount : Map.count (readHeader (Packet.received d.data)).senderId
                  s.connections = true := by simp [Map.count, hc]
              obtain ⟨r, hr⟩ := confirmed_of_known s now
                (readHeader (Packet.received d.data)).msgId _ c hc
              exact Or.inl (by
                simp [receive, hvalid, hconnect, hconfirm, hinit, hcount, hr, Except.isOk, Except.toBool])
          · cases hknown : Map.find? (readHeader (Packet.received d.data)).senderId
                s.connections with
            | none =>
              exact Or.inl (by
                simp [receive, hvalid, hconnect, hconfirm, hinit, hknown, Except.isOk, Except.toBool])
            | some c =>
              by_cases hsame : c.same d.ip d.port = true
              · by_cases hreply : (readHeader (Packet.received d.data)).reply = true
                · have hself := Map.find?_assign_self
                    (readHeader (Packet.received d.data)).senderId (c.update now) s.connections
                  obtain ⟨r, hr⟩ := confirmed_of_known
                    ({ s with
                        connections :=
                          Map.assign (readHeader (Packet.received d.data)).senderId
                            (c.update now) s.connections } : UDPSocket)
                    now (readHeader (Packet.received d.data)).msgId _ _ hself
                  by_cases hrep : r.1 = true
                  · exact Or.inl (by
                simp [receive, hvalid, hconnect, hconfirm, hinit, hknown, hsame, hreply, hr, hrep, Except.isOk, Except.toBool])
                  · exact Or.inl (by
                simp [receive, hvalid, hconnect, hconfirm, hinit, hknown, hsame, hreply, hr, hrep, Except.isOk, Except.toBool])
                · exact Or.inl (by
                simp [receive, hvalid, hconnect, hconfirm, hinit, hknown, hsame, hreply, Except.isOk, Except.toBool])
              · exact Or.inl (by
                simp [receive, hvalid, hconnect, hconfirm, hinit, hknown, hsame, Except.isOk, Except.toBool])
    · exact Or.inl (by
                simp [receive, hvalid, Except.isOk, Except.toBool])

theorem confirmed_ownId (s : UDPSocket) (now : Time) (msgId senderId : Nat)
    (r : Bool × UDPSocket × List Datagram) (h : confirmed s now msgId senderId = .ok r) :
    r.2.1.ownId = s.ownId ∧ r.2.1.connections = s.connections := by
  unfold confirmed at h
  split at h
  · cases h
  · cases h
    exact ⟨rfl, rfl⟩

/-- What a returned `receive` leaves behind: the own id is untouched, and a result of an
application type comes from the authenticated branch, whose only change to the table is the
refreshed record of the sender. -/
theorem receive_shape (env : Consts) (s : UDPSocket) (now : Time) (incoming : Option Datagram)
    (senderId : Nat) (r : Received) (h : receive env s now incoming senderId = .ok r) :
    r.socket.ownId = s.ownId ∧
    (r.type ≠ MsgType.Connect → r.type ≠ MsgType.Init → r.type ≠ MsgType.Error →
      r.type ≠ MsgType.Empty →
      ∃ d c0, incoming = some d ∧
        Map.find? (readHeader (Packet.received d.data)).senderId s.connections = some c0 ∧
        c0.same d.ip d.port = true ∧
        r.socket.connections =
          Map.assign (readHeader (Packet.received d.data)).senderId (c0.update now)
            s.connections ∧
        r.type = (readHeader (Packet.received d.data)).type ∧
        r.packet = (readHeader (Packet.received d.data)).packet) := by
  cases incoming with
  | none =>
    simp only [receive] at h
    cases h
    exact ⟨rfl, fun _ _ _ h4 => absurd rfl h4⟩
  | some d =>
    by_cases hvalid : (readHeader (Packet.received d.data)).packet.isValid = true
    · by_cases hconnect : (readHeader (Packet.received d.data)).type = MsgType.Connect
      · cases hscan : List.find? (fun e => e.2.same d.ip d.port) s.connections with
        | some e =>
          obtain ⟨c, hc⟩ := Map.find?_isSome_of_mem s.connections e (List.mem_of_find?_eq_some hscan)
          simp [receive, hvalid, hconnect, hscan, confirmed, hc] at h
          rw [← h]
          exact ⟨rfl, fun h1 => absurd rfl h1⟩
        | none =>
          cases hfree : findFreeId env s.connections 65536 1 with
          | error f => simp [receive, hvalid, hconnect, hscan, hfree] at h
          | ok o =>
            cases o with
            | none =>
              simp [receive, hvalid, hconnect, hscan, hfree] at h
              rw [← h]
              exact ⟨rfl, fun _ _ h3 => absurd rfl h3⟩
            | some tmp =>
              obtain ⟨c, hc⟩ := Map.find?_insert_self tmp (UDPConnection.new tmp d.ip d.port now)
                s.connections
              simp [receive, hvalid, hconnect, hscan, hfree, confirmed, hc] at h
              rw [← h]
              exact ⟨rfl, fun h1 => absurd rfl h1⟩
      · by_cases hconfirm : (readHeader (Packet.received d.data)).type = MsgType.Confirm
        · simp [receive, hvalid, hconnect, hconfirm] at h
          rw [← h]
          exact ⟨rfl, fun _ _ _ h4 => absurd rfl h4⟩
        · by_cases hinit : (readHeader (Packet.received d.data)).type = MsgType.Init
          · cases hc : Map.find? (readHeader (Packet.received d.data)).senderId s.connections with
            | none =>
              have hcount := (Map.count_eq_false_iff _ _).2 hc
              obtain ⟨c, hc'⟩ := Map.find?_insert_self (readHeader (Packet.received d.data)).senderId
                (UDPConnection.new (readHeader (Packet.received d.data)).senderId d.ip d.port now)
                s.connections
              simp [receive, hvalid, hconnect, hconfirm, hinit, hcount, confirmed, hc'] at h
              rw [← h]
              exact ⟨rfl, fun _ h2 => absurd rfl h2⟩
            | some c =>
              have hcount : Map.count (readHeader (Packet.received d.data)).senderId
                  s.connections = true := by simp [Map.count, hc]
              simp [receive, hvalid, hconnect, hconfirm, hinit, hcount, confirmed, hc] at h
              rw [← h]
              exact ⟨rfl, fun _ h2 => absurd rfl h2⟩
          · cases hknown : Map.find? (readHeader (Packet.received d.data)).senderId
                s.connections with
            | none =>
              simp [receive, hvalid, hconnect, hconfirm, hinit, hknown] at h
              rw [← h]
              exact ⟨rfl, fun _ _ h3 => absurd rfl h3⟩
            | some c =>
              by_cases hsame : c.same d.ip d.port = true
              · have hself := Map.find?_assign_self
                  (readHeader (Packet.received d.data)).senderId (c.update now) s.connections
                by_cases hreply : (readHeader (Packet.received d.data)).reply = true
                · by_cases hrep : Map.count (confirmId
                      (readHeader (Packet.received d.data)).senderId
                      (readHeader (Packet.received d.data)).msgId) s.confirmTimes = true
                  · simp [receive, hvalid, hconnect, hconfirm, hinit, hknown, hsame, hreply,
                      confirmed, hself, hrep] at h
                    rw [← h]
                    exact ⟨rfl, fun _ _ _ h4 => absurd rfl h4⟩
                  · simp [receive, hvalid, hconnect, hconfirm, hinit, hknown, hsame, hreply,
                      confirmed, hself, hrep] at h
                    rw [← h]
                    exact ⟨rfl, fun _ _ _ _ => ⟨d, c, rfl, hknown, hsame, rfl, rfl, rfl⟩⟩
                · simp [receive, hvalid, hconnect, hconfirm, hinit, hknown, hsame, hreply] at h
                  rw [← h]
                  exact ⟨rfl, fun _ _ _ _ => ⟨d, c, rfl, hknown, hsame, rfl, rfl, rfl⟩⟩
              · simp [receive, hvalid, hconnect, hconfirm, hinit, hknown, hsame] at h
                rw [← h]
                exact ⟨rfl, fun _ _ h3 => absurd rfl h3⟩
    · simp [receive, hvalid] at h
      rw [← h]
      exact ⟨rfl, fun _ _ h3 => absurd rfl h3⟩

theorem receive_init (env : Consts) (s : UDPSocket) (now : Time) (d : Datagram) (senderId : Nat)
    (hvalid : (readHeader (Packet.received d.data)).packet.isValid = true)
    (htype : (readHeader (Packet.received d.data)).type = MsgType.Init) :
    ∃ r, receive env s now (some d) senderId = .ok r ∧ r.type = MsgType.Init ∧
      r.packet = (readHeader (Packet.received d.data)).packet ∧ r.socket.ownId = s.ownId := by
  cases hc : Map.find? (readHeader (Packet.received d.data)).senderId s.connections with
  | none =>
    have hcount := (Map.count_eq_false_iff _ _).2 hc
    obtain ⟨c, hc'⟩ := Map.find?_insert_self (readHeader (Packet.received d.data)).senderId
      (UDPConnection.new (readHeader (Packet.received d.data)).senderId d.ip d.port now)
      s.connections
    simp [receive, hvalid, htype, hcount, confirmed, hc']
  | some c =>
    have hcount : Map.count (readHeader (Packet.received d.data)).senderId
        s.connections = true := by simp [Map.count, hc]
    simp [receive, hvalid, htype, hcount, confirmed, hc]

/-- The frame `send` makes of the `Disconnect` packet decodes as an unreliable `Disconnect`
frame with message id 0 whose body is the own id. -/
theorem disconnectFrame_decodes (s : UDPSocket) :
    (readHeader (Packet.received (s.plainFrame s.disconnectPacket).data)).packet.isValid = true ∧
    (readHeader (Packet.received (s.plainFrame s.disconnectPacket).data)).reply = false ∧
    (readHeader (Packet.received (s.plainFrame s.disconnectPacket).data)).msgId = 0 ∧
    (readHeader (Packet.received (s.plainFrame s.disconnectPacket).data)).type =
      MsgType.Disconnect ∧
    ((readHeader (Packet.received (s.plainFrame s.disconnectPacket).data)).packet.readUint16
      0).2 = s.ownId % 2 ^ 16 := by
  rw [disconnectFrame_data]
  refine ⟨?_, ?_, ?_, ?_, ?_⟩
  · simp [readHeader, Packet.received, Packet.readUint16, Packet.readBool,
      Packet.readMsgType, Packet.checkSize]
  · simp [readHeader, Packet.received, Packet.readUint16, Packet.readBool,
      Packet.readMsgType, Packet.checkSize, Packet.byteAt]
  · simp [readHeader, Packet.received, Packet.readUint16, Packet.readBool,
      Packet.readMsgType, Packet.checkSize, Packet.byteAt]
  · simp [readHeader, Packet.received, Packet.readUint16, Packet.readBool,
      Packet.readMsgType, Packet.checkSize, Packet.byteAt, MsgType.toCode, MsgType.ofCode]
  · simp [readHeader, Packet.received, Packet.readUint16, Packet.readBool,
      Packet.readMsgType, Packet.checkSize, Packet.byteAt]
    omega

theorem unbind_sent (s : UDPSocket) :
    (unbind s).2 = s.connections.map (fun e =>
      (⟨(s.plainFrame s.disconnectPacket).data, e.2.ip, e.2.port⟩ : Datagram)) := by
  simp [unbind, unbindLoop_eq_map]

theorem evictLoopWith_ofAnswer (env : Consts) (callback : Option (Nat → Bool)) (now : Time)
    (conns : Map UDPConnection) :
    ∀ (kept : Map UDPConnection) (s : UDPSocket),
      evictLoopWith env (callback.map Callback.ofAnswer) now kept s conns =
        ⟨{ s with connections := kept ++ (evictLoop env callback now conns).connections }, [],
          (evictLoop env callback now conns).calls,
          (evictLoop env callback now conns).completed⟩ := by
  induction conns with
  | nil => intro kept s; simp [evictLoopWith, evictLoop]
  | cons e rest ih =>
    intro kept s
    obtain ⟨id, c⟩ := e
    by_cases ht : c.timeout env now = true
    · cases callback with
      | none => simpa [evictLoopWith, evictLoop, ht] using ih kept s
      | some f =>
        by_cases hf : f id = true
        · have := ih kept { s with connections := kept ++ (id, c) :: rest }
          simp only [Option.map_some'] at this
          simp [evictLoopWith, evictLoop, ht, hf, Callback.ofAnswer, this]
        · have hf' : f id = false := by simpa using hf
          simp [evictLoopWith, evictLoop, ht, hf', Callback.ofAnswer]
    · have ht' : c.timeout env now = false := by simpa using ht
      have := ih (kept ++ [(id, c)]) s
      simp [evictLoopWith, evictLoop, ht', this]

theorem resendLoopWith_eq (policy : Policy) (now : Time) (q : Map ReliableMsg) :
    (resendLoopWith policy now q).queue = (resendLoop policy now q).1 ∧
    (resendLoopWith policy now q).sent = (resendLoop policy now q).2 := by
  induction q with
  | nil => exact ⟨rfl, rfl⟩
  | cons e rest ih =>
    obtain ⟨id, m⟩ := e
    cases ht : (m.trySend policy now).1 <;> simp [resendLoopWith, resendLoop, ht, ih.1, ih.2]

/-- On callbacks that only answer, `updateWith` is `update`. -/
theorem updateWith_ofAnswer (env : Consts) (policy : Policy) (callback : Option (Nat → Bool))
    (s : UDPSocket) (now : Time) :
    (updateWith env policy (callback.map Callback.ofAnswer) s now).socket =
      (update env policy callback s now).socket ∧
    (updateWith env policy (callback.map Callback.ofAnswer) s now).sent =
      (update env policy callback s now).sent ∧
    (updateWith env policy (callback.map Callback.ofAnswer) s now).calls =
      (update env policy callback s now).calls ∧
    (updateWith env policy (callback.map Callback.ofAnswer) s now).completed =
      (update env policy callback s now).completed := by
  have h := evictLoopWith_ofAnswer env callback now s.connections [] s
  cases hd : (evictLoop env callback now s.connections).completed with
  | false =>
    rw [update_of_stopped env policy callback s now hd]
    simp [updateWith, h, hd]
  | true =>
    rw [update_of_completed env policy callback s now hd]
    simp [updateWith, h, hd, (resendLoopWith_eq policy now s.relyPackets).1,
      (resendLoopWith_eq policy now s.relyPackets).2]

/-- What the first loop leaves of a member `π` of the transport other than the table, when
the callback leaves `π` alone whenever it answers `true`: on completion `π` is as before; when
the loop ends the update, the transport is the one left by a callback call that answered
`false` and was handed `π` as before. -/
theorem evictLoopWith_member {α : Type} (π : UDPSocket → α)
    (hπ : ∀ (s : UDPSocket) (x : Map UDPConnection), π { s with connections := x } = π s)
    (env : Consts) (callback : Option Callback) (now : Time)
    (hquiet : ∀ f, callback = some f → ∀ id t, (f id t).answer = true → π (f id t).socket = π t)
    (conns : Map UDPConnection) :
    ∀ (kept : Map UDPConnection) (s : UDPSocket),
      ((evictLoopWith env callback now kept s conns).completed = true →
        π (evictLoopWith env callback now kept s conns).socket = π s) ∧
      ((evictLoopWith env callback now kept s conns).completed = false →
        ∃ f id t, callback = some f ∧ (f id t).answer = false ∧ π t = π s ∧
          (evictLoopWith env callback now kept s conns).socket = (f id t).socket) := by
  induction conns with
  | nil =>
    intro kept s
    simp [evictLoopWith, hπ]
  | cons e rest ih =>
    intro kept s
    obtain ⟨id, c⟩ := e
    by_cases ht : c.timeout env now = true
    · cases hcb : callback with
      | none =>
        have := ih kept s
        rw [hcb] at this
        simpa [evictLoopWith, ht] using this
      | some f =>
        cases ha : (f id { s with connections := kept ++ (id, c) :: rest }).answer with
        | false =>
          have hval : evictLoopWith env (some f) now kept s ((id, c) :: rest) =
              ⟨(f id { s with connections := kept ++ (id, c) :: rest }).socket,
                (f id { s with connections := kept ++ (id, c) :: rest }).sent, [id], false⟩ := by
            simp [evictLoopWith, ht, ha]
          rw [hval]
          refine ⟨(fun h => by cases h), fun _ => ?_⟩
          exact ⟨f, id, { s with connections := kept ++ (id, c) :: rest }, rfl, ha, hπ _ _, rfl⟩
        | true =>
          have hq := (hquiet f hcb id { s with connections := kept ++ (id, c) :: rest } ha).trans
            (hπ s (kept ++ (id, c) :: rest))
          have := ih kept (f id { s with connections := kept ++ (id, c) :: rest }).socket
          rw [hcb] at this
          have hval : evictLoopWith env (some f) now kept s ((id, c) :: rest) =
              ⟨(evictLoopWith env (some f) now kept
                  (f id { s with connections := kept ++ (id, c) :: rest }).socket rest).socket,
                (f id { s with connections := kept ++ (id, c) :: rest }).sent ++
                  (evictLoopWith env (some f) now kept
                    (f id { s with connections := kept ++ (id, c) :: rest }).socket rest).sent,
                id :: (evictLoopWith env (some f) now kept
                  (f id { s with connections := kept ++ (id, c) :: rest }).socket rest).calls,
                (evictLoopWith env (some f) now kept
                  (f id { s with connections := kept ++ (id, c) :: rest }).socket
                  rest).completed⟩ := by
            simp [evictLoopWith, ht, ha]
          rw [hval]
          refine ⟨fun h => (this.1 h).trans hq, fun h => ?_⟩
          obtain ⟨f', id', t, h1, h2, h3, h4⟩ := this.2 h
          exact ⟨f', id', t, h1, h2, h3.trans hq, h4⟩
    · have ht' : c.timeout env now = false := by simpa using ht
      have := ih (kept ++ [(id, c)]) s
      simpa [evictLoopWith, ht'] using this

theorem resendLoopWith_trySends (policy : Policy) (now : Time) (q : Map ReliableMsg) :
    (resendLoopWith policy now q).trySends = q.map (fun e => (e.1, (e.2.trySend policy now).1)) ∧
    (resendLoopWith policy now q).sent =
      (q.map (fun e => (e.2.trySend policy now).2.2)).flatten ∧
    (resendLoopWith policy now q).queue =
      q.filterMap (fun e =>
        if (e.2.trySend policy now).1 then some (e.1, (e.2.trySend policy now).2.1) else none) := by
  induction q with
  | nil => exact ⟨rfl, rfl, rfl⟩
  | cons e rest ih =>
    obtain ⟨id, m⟩ := e
    cases ht : (m.trySend policy now).1 <;>
      simp [resendLoopWith, ht, ih.1, ih.2.1, ih.2.2, List.filterMap_cons]

theorem updateWith_completed (env : Consts) (policy : Policy) (callback : Option Callback)
    (s : UDPSocket) (now : Time) :
    (updateWith env policy callback s now).completed =
      (evictLoopWith env callback now [] s s.connections).completed := by
  cases h : (evictLoopWith env callback now [] s s.connections).completed <;>
    simp [updateWith, h]

theorem updateWith_of_stopped (env : Consts) (policy : Policy) (callback : Option Callback)
    (s : UDPSocket) (now : Time)
    (h : (evictLoopWith env callback now [] s s.connections).completed = false) :
    updateWith env policy callback s now =
      ⟨(evictLoopWith env callback now [] s s.connections).socket,
        (evictLoopWith env callback now [] s s.connections).sent,
        (evictLoopWith env callback now [] s s.connections).calls, [], false⟩ := by
  simp [updateWith, h]

theorem updateWith_of_completed (env : Consts) (policy : Policy) (callback : Option Callback)
    (s : UDPSocket) (now : Time)
    (h : (evictLoopWith env callback now [] s s.connections).completed = true) :
    updateWith env policy callback s now =
      ⟨{ (evictLoopWith env callback now [] s s.connections).socket with
          relyPackets := (resendLoopWith policy now
            (evictLoopWith env callback now [] s s.connections).socket.relyPackets).queue
          confirmTimes := purgeLoop env now
            (evictLoopWith env callback now [] s s.connections).socket.confirmTimes },
        (evictLoopWith env callback now [] s s.connections).sent ++
          (resendLoopWith policy now
            (evictLoopWith env callback now [] s s.connections).socket.relyPackets).sent,
        (evictLoopWith env callback now [] s s.connections).calls,
        (resendLoopWith policy now
          (evictLoopWith env callback now [] s s.connections).socket.relyPackets).trySends,
        true⟩ := by
  simp [updateWith, h]

theorem updateWith_queue (env : Consts) (policy : Policy) (callback : Option Callback)
    (s : UDPSocket) (now : Time)
    (hquiet : ∀ f, callback = some f → ∀ id t, (f id t).answer = true →
      (f id t).socket.relyPackets = t.relyPackets) :
    ((updateWith env policy callback s now).completed = true →
      (updateWith env policy callback s now).socket.relyPackets =
        (resendLoopWith policy now s.relyPackets).queue ∧
      (updateWith env policy callback s now).trySends =
        (resendLoopWith policy now s.relyPackets).trySends ∧
      (updateWith env policy callback s now).sent =
        (evictLoopWith env callback now [] s s.connections).sent ++
          (resendLoopWith policy now s.relyPackets).sent) ∧
    ((updateWith env policy callback s now).completed = false →
      (updateWith env policy callback s now).trySends = [] ∧
      ∃ f id t, callback = some f ∧ (f id t).answer = false ∧
        t.relyPackets = s.relyPackets ∧
        (updateWith env policy callback s now).socket = (f id t).socket) := by
  have hmem := evictLoopWith_member (fun t => t.relyPackets) (fun _ _ => rfl) env callback now
    hquiet s.connections [] s
  constructor
  · intro hd
    rw [updateWith_completed] at hd
    have hq := hmem.1 hd
    simp only at hq
    rw [updateWith_of_completed env policy callback s now hd]
    simp [hq]
  · intro hd
    rw [updateWith_completed] at hd
    rw [updateWith_of_stopped env policy callback s now hd]
    exact ⟨rfl, hmem.2 hd⟩

theorem updateWith_queue_keys (env : Consts) (policy : Policy) (callback : Option Callback)
    (hquiet : ∀ f, callback = some f → ∀ id t, (f id t).answer = true →
      (f id t).socket.relyPackets = t.relyPackets)
    (hnonew : ∀ f, callback = some f → ∀ id t, (f id t).answer = false →
      ∀ k ∈ (f id t).socket.relyPackets.map Prod.fst, k ∈ t.relyPackets.map Prod.fst)
    (s : UDPSocket) (now : Time) (k : Nat) :
    (k ∈ (updateWith env policy callback s now).socket.relyPackets.map Prod.fst →
      k ∈ s.relyPackets.map Prod.fst) ∧
    (k ∈ (updateWith env policy callback s now).trySends.map Prod.fst →
      k ∈ s.relyPackets.map Prod.fst) := by
  have hu := updateWith_queue env policy callback s now hquiet
  cases hd : (updateWith env policy callback s now).completed with
  | true =>
    obtain ⟨h1, h2, _⟩ := hu.1 hd
    rw [h1, h2, (resendLoopWith_eq policy now s.relyPackets).1,
      (resendLoopWith_trySends policy now s.relyPackets).1]
    refine ⟨fun h => (resendLoop_keys_sublist policy now s.relyPackets).subset h, fun h => ?_⟩
    simpa [List.map_map, Function.comp] using h
  | false =>
    obtain ⟨h1, f, id, t, hf, ha, ht, hs⟩ := hu.2 hd
    rw [h1, hs]
    refine ⟨fun h => ?_, fun h => by simp at h⟩
    have := hnonew f hf id t ha k h
    rwa [ht] at this

theorem ticksTrySends_keys (env : Consts) (policy : Policy) (callback : Option Callback)
    (hquiet : ∀ f, callback = some f → ∀ id t, (f id t).answer = true →
      (f id t).socket.relyPackets = t.relyPackets)
    (hnonew : ∀ f, callback = some f → ∀ id t, (f id t).answer = false →
      ∀ k ∈ (f id t).socket.relyPackets.map Prod.fst, k ∈ t.relyPackets.map Prod.fst)
    (times : List Time) :
    ∀ (s : UDPSocket) (k : Nat), k ∈ (ticksTrySends env policy callback s times).map Prod.fst →
      k ∈ s.relyPackets.map Prod.fst := by
  induction times with
  | nil => intro s k h; simp [ticksTrySends] at h
  | cons now rest ih =>
    intro s k h
    simp only [ticksTrySends, List.map_append, List.mem_append] at h
    rcases h with h | h
    · exact (updateWith_queue_keys env policy callback hquiet hnonew s now k).2 h
    · exact (updateWith_queue_keys env policy callback hquiet hnonew s now k).1 (ih _ k h)

theorem resendLoop_find? (policy : Policy) (now : Time) (q : Map ReliableMsg) (k : Nat)
    (m : ReliableMsg) (hq : Map.find? k q = some m) (ht : (m.trySend policy now).1 = true) :
    Map.find? k (resendLoop policy now q).1 = some (m.trySend policy now).2.1 := by
  induction q with
  | nil => simp [Map.find?] at hq
  | cons e rest ih =>
    obtain ⟨k', m'⟩ := e
    by_cases hk : k' = k
    · simp only [Map.find?, hk, if_true, Option.some.injEq] at hq
      subst hq
      simp [resendLoop, ht, Map.find?, hk]
    · simp only [Map.find?, hk, if_false] at hq
      cases ht' : (m'.trySend policy now).1 with
      | false => simpa [resendLoop, ht'] using ih hq
      | true => simpa [resendLoop, ht', Map.find?, hk] using ih hq

theorem trySend_of_wait (policy : Policy) (now : Time) (m : ReliableMsg)
    (h : policy now m = Verdict.wait) : m.trySend policy now = (true, m, []) := by
  simp [ReliableMsg.trySend, h]

theorem trySend_of_resend (policy : Policy) (now : Time) (m : ReliableMsg)
    (h : policy now m = Verdict.resend) :
    m.trySend policy now =
      (true, { m with lastSent := some now, attempts := m.attempts + 1 },
        [⟨m.packet.data, m.ip, m.port⟩]) := by
  simp [ReliableMsg.trySend, h]

theorem updateWith_keeps_waiting (env : Consts) (policy : Policy) (callback : Option Callback)
    (hcb : ∀ f, callback = some f → ∀ id t, (f id t).socket.relyPackets = t.relyPackets)
    (s : UDPSocket) (now : Time) (k : Nat) (m : ReliableMsg)
    (hq : Map.find? k s.relyPackets = some m) (hw : policy now m = Verdict.wait) :
    Map.find? k (updateWith env policy callback s now).socket.relyPackets = some m := by
  have hu := updateWith_queue env policy callback s now (fun f hf id t _ => hcb f hf id t)
  cases hd : (updateWith env policy callback s now).completed with
  | true =>
    obtain ⟨h1, _, _⟩ := hu.1 hd
    rw [h1, (resendLoopWith_eq policy now s.relyPackets).1]
    have := resendLoop_find? policy now s.relyPackets k m hq
      (by rw [trySend_of_wait policy now m hw])
    rwa [trySend_of_wait policy now m hw] at this
  | false =>
    obtain ⟨_, f, id, t, hf, _, ht, hs⟩ := hu.2 hd
    rw [hs, hcb f hf id t, ht]
    exact hq

theorem ticksWith_keeps_waiting (env : Consts) (policy : Policy) (callback : Option Callback)
    (hcb : ∀ f, callback = some f → ∀ id t, (f id t).socket.relyPackets = t.relyPackets)
    (k : Nat) (m : ReliableMsg) (waits : List Time) :
    ∀ s : UDPSocket, Map.find? k s.relyPackets = some m →
      (∀ w ∈ waits, policy w m = Verdict.wait) →
      Map.find? k (ticksWith env policy callback s waits).relyPackets = some m := by
  induction waits with
  | nil => intro s hq _; exact hq
  | cons w rest ih =>
    intro s hq hw
    simp only [ticksWith]
    exact ih _ (updateWith_keeps_waiting env policy callback hcb s w k m hq
      (hw w (List.mem_cons_self _ _))) (fun w' hw' => hw w' (List.mem_cons_of_mem _ hw'))

theorem evictLoopWith_completed (env : Consts) (callback : Option Callback) (now : Time)
    (h : ∀ f, callback = some f → ∀ id t, (f id t).answer = true)
    (conns : Map UDPConnection) :
    ∀ (kept : Map UDPConnection) (s : UDPSocket),
      (evictLoopWith env callback now kept s conns).completed = true := by
  induction conns with
  | nil => intro kept s; rfl
  | cons e rest ih =>
    intro kept s
    obtain ⟨id, c⟩ := e
    by_cases ht : c.timeout env now = true
    · cases hcb : callback with
      | none =>
        have := ih kept s
        rw [hcb] at this
        simpa [evictLoopWith, ht] using this
      | some f =>
        have ha := h f hcb id { s with connections := kept ++ (id, c) :: rest }
        have := ih kept (f id { s with connections := kept ++ (id, c) :: rest }).socket
        rw [hcb] at this
        simpa [evictLoopWith, ht, ha] using this
    · have ht' : c.timeout env now = false := by simpa using ht
      simpa [evictLoopWith, ht'] using ih (kept ++ [(id, c)]) s


/-! ## C1: handshake, id allocation -/

/-- C1. A well-formed `Connect` datagram from an address that matches no connection, while
some id in `[1, NETWORK_MAX_CLIENTS]` is free: `receive` returns `Connect`, the reported
sender id is the least free id, and the table is the old one plus exactly one connection, under
that id and at the origin address. -/
theorem receive_connect_allocates_least_free_id (env : Consts) (s : UDPSocket) (now : Time)
    (d : Datagram) (senderId : Nat)
    (hvalid : (readHeader (Packet.received d.data)).packet.isValid = true)
    (htype : (readHeader (Packet.received d.data)).type = MsgType.Connect)
    (hnew : ∀ e ∈ s.connections, e.2.same d.ip d.port = false)
    (hfree : ∃ i, 1 ≤ i ∧ i ≤ env.NETWORK_MAX_CLIENTS ∧ i < 65536 ∧
      Map.count i s.connections = false) :
    ∃ r, receive env s now (some d) senderId = .ok r ∧ r.type = MsgType.Connect ∧
      (1 ≤ r.senderId ∧ r.senderId ≤ env.NETWORK_MAX_CLIENTS ∧
        Map.count r.senderId s.connections = false ∧
        ∀ j, 1 ≤ j → j < r.senderId → Map.count j s.connections = true) ∧
      r.socket.connections.Perm
        ((r.senderId, UDPConnection.new r.senderId d.ip d.port now) :: s.connections) ∧
      ∀ k, Map.find? k r.socket.connections =
        if k = r.senderId then some (UDPConnection.new r.senderId d.ip d.port now)
        else Map.find? k s.connections := by
  obtain ⟨i, h1, h2, h3, h4⟩ := hfree
  obtain ⟨id, e1, e2, e3, e4, e5⟩ :=
    findFreeId_least env s.connections 65536 1 i h1 h2 h3 h4 (by omega)
  have hscan : List.find? (fun e => e.2.same d.ip d.port) s.connections = none :=
    find?_none_of_forall _ _ hnew
  have hnone : Map.find? id s.connections = none := (Map.count_eq_false_iff _ _).1 e4
  have hins : Map.insert id (UDPConnection.new id d.ip d.port now) s.connections =
      Map.insertSorted id (UDPConnection.new id d.ip d.port now) s.connections := by
    simp [Map.insert, e4]
  have hself := Map.find?_insertSorted_self id (UDPConnection.new id d.ip d.port now)
    s.connections hnone
  have hrecv : receive env s now (some d) senderId = .ok
      ⟨MsgType.Connect,
        { s with
          connections := Map.insertSorted id (UDPConnection.new id d.ip d.port now) s.connections
          confirmTimes := Map.assign (confirmId id (readHeader (Packet.received d.data)).msgId) now
            s.confirmTimes },
        (readHeader (Packet.received d.data)).packet, id,
        [(UDPConnection.new id d.ip d.port now).send
          (s.confirmPacket (readHeader (Packet.received d.data)).msgId)]⟩ := by
    simp only [receive, hvalid, htype, hscan, e1, hins, confirmed, hself]
    rfl
  refine ⟨_, hrecv, rfl, ⟨e2, le_trans e3 h2, e4, e5⟩, Map.insertSorted_perm _ _ _, ?_⟩
  · intro k
    by_cases hk : k = id
    · subst hk; simpa using hself
    · simpa [hk] using Map.find?_insertSorted_ne id k _ s.connections hk

/-- C1, instance: one peer under id 1, two slots, a `Connect` from a new address gets id 2. -/
theorem receive_connect_allocates_least_free_id_witness :
    ∃ r, receive exampleConsts exampleSocket 3 (some exampleConnect) 0 = .ok r ∧
      r.type = MsgType.Connect ∧
      (1 ≤ r.senderId ∧ r.senderId ≤ exampleConsts.NETWORK_MAX_CLIENTS ∧
        Map.count r.senderId exampleSocket.connections = false ∧
        ∀ j, 1 ≤ j → j < r.senderId → Map.count j exampleSocket.connections = true) ∧
      r.socket.connections.Perm
        ((r.senderId, UDPConnection.new r.senderId exampleConnect.ip exampleConnect.port 3) ::
          exampleSocket.connections) ∧
      ∀ k, Map.find? k r.socket.connections =
        if k = r.senderId then
          some (UDPConnection.new r.senderId exampleConnect.ip exampleConnect.port 3)
        else Map.find? k exampleSocket.connections :=
  receive_connect_allocates_least_free_id exampleConsts exampleSocket 3 exampleConnect 0
    (by decide) (by decide) (by decide) ⟨2, by decide, by decide, by decide, by decide⟩

/-! ## C2: handshake, session full -/

/-- C2. A well-formed `Connect` datagram from an address that matches no connection, while
every id in `[1, NETWORK_MAX_CLIENTS]` is taken: `receive` returns `Error`, writes nothing to
the socket, and leaves table, retransmission queue and ledger as they were. -/
theorem receive_connect_when_full_returns_error (env : Consts) (s : UDPSocket) (now : Time)
    (d : Datagram) (senderId : Nat)
    (hmax : env.NETWORK_MAX_CLIENTS < 65535)
    (hvalid : (readHeader (Packet.received d.data)).packet.isValid = true)
    (htype : (readHeader (Packet.received d.data)).type = MsgType.Connect)
    (hnew : ∀ e ∈ s.connections, e.2.same d.ip d.port = false)
    (hfull : ∀ i, 1 ≤ i → i ≤ env.NETWORK_MAX_CLIENTS → Map.count i s.connections = true) :
    ∃ r, receive env s now (some d) senderId = .ok r ∧ r.type = MsgType.Error ∧ r.sent = [] ∧
      r.socket.connections = s.connections ∧ r.socket.relyPackets = s.relyPackets ∧
      r.socket.confirmTimes = s.confirmTimes := by
  have hscan : List.find? (fun e => e.2.same d.ip d.port) s.connections = none :=
    find?_none_of_forall _ _ hnew
  have hloop := findFreeId_full env s.connections hmax hfull 65536 1 (le_refl _) (by omega)
    (by omega)
  refine ⟨⟨MsgType.Error, s, (readHeader (Packet.received d.data)).packet,
    (readHeader (Packet.received d.data)).senderId, []⟩, ?_, rfl, rfl, rfl, rfl, rfl⟩
  simp only [receive, hvalid, htype, hscan, hloop]
  rfl

/-- C2, instance: both slots taken, a `Connect` from a new address is answered with `Error`. -/
theorem receive_connect_when_full_returns_error_witness :
    ∃ r, receive exampleConsts exampleFullSocket 3 (some exampleConnect) 0 = .ok r ∧
      r.type = MsgType.Error ∧ r.sent = [] ∧
      r.socket.connections = exampleFullSocket.connections ∧
      r.socket.relyPackets = exampleFullSocket.relyPackets ∧
      r.socket.confirmTimes = exampleFullSocket.confirmTimes :=
  receive_connect_when_full_returns_error exampleConsts exampleFullSocket 3 exampleConnect 0
    (by decide) (by decide) (by decide) (by decide)
    (by intro i h1 h2
        have h3 : i ≤ 2 := h2
        interval_cases i <;> decide)

/-! ## C3: duplicate suppression -/

/-- C4. A well-formed frame that is not `Connect`, `Init` or `Confirm`, claiming the id of a
known connection but arriving from another address: `receive` returns `Error`, sends no
acknowledgement, leaves the connection record (with its `lastMsg`) as it was, and changes
neither table, queue nor ledger. -/
theorem receive_spoofed_frame_returns_error (env : Consts) (s : UDPSocket) (now : Time)
    (d : Datagram) (senderId : Nat) (c : UDPConnection)
    (hvalid : (readHeader (Packet.received d.data)).packet.isValid = true)
    (hconnect : (readHeader (Packet.received d.data)).type ≠ MsgType.Connect)
    (hinit : (readHeader (Packet.received d.data)).type ≠ MsgType.Init)
    (hconfirm : (readHeader (Packet.received d.data)).type ≠ MsgType.Confirm)
    (hknown : Map.find? (readHeader (Packet.received d.data)).senderId s.connections = some c)
    (haddr : c.same d.ip d.port = false) :
    ∃ r, receive env s now (some d) senderId = .ok r ∧ r.type = MsgType.Error ∧ r.sent = [] ∧
      Map.find? (readHeader (Packet.received d.data)).senderId r.socket.connections = some c ∧
      r.socket.connections = s.connections ∧ r.socket.relyPackets = s.relyPackets ∧
      r.socket.confirmTimes = s.confirmTimes := by
  refine ⟨⟨MsgType.Error, s, (readHeader (Packet.received d.data)).packet,
    (readHeader (Packet.received d.data)).senderId, []⟩, ?_, rfl, rfl, hknown, rfl, rfl, rfl⟩
  simp [receive, hvalid, hconnect, hinit, hconfirm, hknown, haddr]

/-- C4, instance: a `Custom` frame claiming peer 1 from an address that is not its own. -/
theorem receive_spoofed_frame_returns_error_witness :
    ∃ r, receive exampleConsts exampleSocket 3 (some exampleSpoofed) 0 = .ok r ∧
      r.type = MsgType.Error ∧ r.sent = [] ∧
      Map.find? 1 r.socket.connections = some ⟨1, 100, 1, 0⟩ ∧
      r.socket.connections = exampleSocket.connections ∧
      r.socket.relyPackets = exampleSocket.relyPackets ∧
      r.socket.confirmTimes = exampleSocket.confirmTimes :=
  receive_spoofed_frame_returns_error exampleConsts exampleSocket 3 exampleSpoofed 0
    ⟨1, 100, 1, 0⟩ (by decide) (by decide) (by decide) (by decide) (by decide) (by decide)

/-! ## C5: unauthenticated senders -/

/-- C5, counterexample. Three well-formed frames claim sender id 1, whose stored address is
100:1, and arrive from 200:2. The `Confirm` frame yields `Empty` and empties the retransmission
queue; the `Init` frame yields `Init` and stamps the ledger; the `Connect` frame yields
`Connect` and adds a connection. None yields `Error`, and each changes the state. -/
theorem receive_unauthenticated_handshake_counterexample :
    (Map.find? 1 exampleSocket.connections = some ⟨1, 100, 1, 0⟩ ∧
      UDPConnection.same ⟨1, 100, 1, 0⟩ 200 2 = false) ∧
    (∃ r, receive exampleConsts exampleSocket 3 (some exampleForeignConfirm) 0 = .ok r ∧
      (readHeader (Packet.received exampleForeignConfirm.data)).packet.isValid = true ∧
      (readHeader (Packet.received exampleForeignConfirm.data)).senderId = 1 ∧
      r.type = MsgType.Empty ∧ r.socket.relyPackets = [] ∧ exampleSocket.relyPackets ≠ []) ∧
    (∃ r, receive exampleConsts exampleSocket 3 (some exampleForeignInit) 0 = .ok r ∧
      (readHeader (Packet.received exampleForeignInit.data)).packet.isValid = true ∧
      (readHeader (Packet.received exampleForeignInit.data)).senderId = 1 ∧
      r.type = MsgType.Init ∧ r.socket.confirmTimes = [(65541, 3)] ∧
      exampleSocket.confirmTimes = []) ∧
    (∃ r, receive exampleConsts exampleSocket 3 (some exampleForeignConnect) 0 = .ok r ∧
      (readHeader (Packet.received exampleForeignConnect.data)).packet.isValid = true ∧
      (readHeader (Packet.received exampleForeignConnect.data)).senderId = 1 ∧
      r.type = MsgType.Connect ∧ r.socket.connections.length = 2 ∧
      exampleSocket.connections.length = 1) := by
  refine ⟨by decide, ⟨_, rfl, ?_⟩, ⟨_, rfl, ?_⟩, ⟨_, rfl, ?_⟩⟩ <;> decide

/-- C5, amended. A well-formed frame of a type other than `Connect`, `Confirm` and `Init`
whose claimed sender id has a stored address different from the origin: `receive` returns
`Error` and the transport state is the one before the call. -/
theorem receive_unauthenticated_frame_no_mutation (env : Consts) (s : UDPSocket) (now : Time)
    (d : Datagram) (senderId : Nat) (c : UDPConnection)
    (hvalid : (readHeader (Packet.received d.data)).packet.isValid = true)
    (hconnect : (readHeader (Packet.received d.data)).type ≠ MsgType.Connect)
    (hconfirm : (readHeader (Packet.received d.data)).type ≠ MsgType.Confirm)
    (hinit : (readHeader (Packet.received d.data)).type ≠ MsgType.Init)
    (hstored : Map.find? (readHeader (Packet.received d.data)).senderId s.connections = some c)
    (hmismatch : c.same d.ip d.port = false) :
    ∃ r, receive env s now (some d) senderId = .ok r ∧ r.type = MsgType.Error ∧ r.socket = s := by
  refine ⟨⟨MsgType.Error, s, (readHeader (Packet.received d.data)).packet,
    (readHeader (Packet.received d.data)).senderId, []⟩, ?_, rfl, rfl⟩
  simp [receive, hvalid, hconnect, hinit, hconfirm, hstored, hmismatch]

/-- C5, instance of the amended statement: the same foreign `Custom` frame leaves the state alone. -/
theorem receive_unauthenticated_frame_no_mutation_witness :
    ∃ r, receive exampleConsts exampleSocket 3 (some exampleSpoofed) 0 = .ok r ∧
      r.type = MsgType.Error ∧ r.socket = exampleSocket :=
  receive_unauthenticated_frame_no_mutation exampleConsts exampleSocket 3 exampleSpoofed 0
    ⟨1, 100, 1, 0⟩ (by decide) (by decide) (by decide) (by decide) (by decide) (by decide)

/-! ## C6: acknowledgements -/

/-- C6. A well-formed `Confirm` frame carrying message id `m`: `receive` returns `Empty`; the
retransmission queue loses the entry keyed `m` (it is unchanged when there was none) and keeps
every other entry; table, ledger, own id and message-id counter are unchanged. -/
theorem receive_confirm_erases_queue_entry (env : Consts) (s : UDPSocket) (now : Time)
    (d : Datagram) (senderId : Nat)
    (hvalid : (readHeader (Packet.received d.data)).packet.isValid = true)
    (htype : (readHeader (Packet.received d.data)).type = MsgType.Confirm) :
    ∃ r, receive env s now (some d) senderId = .ok r ∧ r.type = MsgType.Empty ∧
      (∀ k, Map.find? k r.socket.relyPackets =
        if k = (readHeader (Packet.received d.data)).msgId then none
        else Map.find? k s.relyPackets) ∧
      r.socket.relyPackets =
        s.relyPackets.filter (fun e => !decide (e.1 = (readHeader (Packet.received d.data)).msgId)) ∧
      (Map.find? (readHeader (Packet.received d.data)).msgId s.relyPackets = none →
        r.socket.relyPackets = s.relyPackets) ∧
      r.socket.connections = s.connections ∧ r.socket.confirmTimes = s.confirmTimes ∧
      r.socket.ownId = s.ownId ∧ r.socket.nextRelyMsgId = s.nextRelyMsgId := by
  refine ⟨⟨MsgType.Empty,
    { s with relyPackets := Map.erase (readHeader (Packet.received d.data)).msgId s.relyPackets },
    (readHeader (Packet.received d.data)).packet,
    (readHeader (Packet.received d.data)).senderId, []⟩, ?_, rfl, ?_, rfl, ?_, rfl, rfl, rfl, rfl⟩
  · simp [receive, hvalid, htype]
  · intro k; exact Map.find?_erase _ _ _
  · intro h; exact Map.erase_of_find?_none _ _ h

/-- C6, instance: a `Confirm` for message 5 removes the only message in flight. -/
theorem receive_confirm_erases_queue_entry_witness :
    ∃ r, receive exampleConsts exampleSocket 3 (some exampleForeignConfirm) 0 = .ok r ∧
      r.type = MsgType.Empty ∧ r.socket.relyPackets = [] :=
  match receive_confirm_erases_queue_entry exampleConsts exampleSocket 3 exampleForeignConfirm 0
    (by decide) (by decide) with
  | ⟨r, h1, h2, _, h4, _⟩ => ⟨r, h1, h2, h4.trans (by decide)⟩

/-! ## C7: reliable send, transmission -/

/-- C7, counterexample. `sendRely` on the example transport writes no datagram: the frame
(own id 7, reliable, message id 6) followed by the body is not among the datagrams written. -/
theorem sendRely_first_attempt_counterexample :
    (sendRely exampleSocket exampleBody 100 1).2 = [] ∧
    (⟨[0, 7, 1, 0, 6, 1, 2, 3], 100, 1⟩ : Datagram) ∉ (sendRely exampleSocket exampleBody 100 1).2 := by
  decide

/-- C7, amended. `sendRely` makes no transmission attempt of its own: it writes no datagram and
only offers the frame (own id, reliable, allocated message id, then the body) to the
retransmission queue. When the queue held no entry under that id and the callback leaves the
queue alone, the message stays in the queue as it was entered, its retransmission state
showing no attempt, through every later `update` at which its resend policy answers wait; if
the `update` that follows those finds the policy calling for a send and is not cut short by
the callback, it writes the frame to the destination and records that one attempt. -/
theorem sendRely_defers_first_attempt (s : UDPSocket) (packet : Packet) (ip port : Nat) :
    (sendRely s packet ip port).2 = [] ∧
    (sendRely s packet ip port).1.relyPackets =
      Map.insert s.nextRelyMsgId (ReliableMsg.new (s.relyFrame packet) ip port) s.relyPackets ∧
    (s.relyFrame packet).data =
      [s.ownId / 256 % 256, s.ownId % 256, 1, s.nextRelyMsgId / 256 % 256, s.nextRelyMsgId % 256]
        ++ packet.data ∧
    ∀ (env : Consts) (policy : Policy) (callback : Option Callback) (waits : List Time)
      (now : Time),
      Map.find? s.nextRelyMsgId s.relyPackets = none →
      (∀ f, callback = some f → ∀ id t, (f id t).socket.relyPackets = t.relyPackets) →
      (∀ w ∈ waits, policy w (ReliableMsg.new (s.relyFrame packet) ip port) = Verdict.wait) →
      policy now (ReliableMsg.new (s.relyFrame packet) ip port) = Verdict.resend →
      Map.find? s.nextRelyMsgId
          (ticksWith env policy callback (sendRely s packet ip port).1 waits).relyPackets =
        some (ReliableMsg.new (s.relyFrame packet) ip port) ∧
      ((updateWith env policy callback
          (ticksWith env policy callback (sendRely s packet ip port).1 waits) now).completed
          = true →
        (⟨(s.relyFrame packet).data, ip, port⟩ : Datagram) ∈
          (updateWith env policy callback
            (ticksWith env policy callback (sendRely s packet ip port).1 waits) now).sent ∧
        Map.find? s.nextRelyMsgId
            (updateWith env policy callback
              (ticksWith env policy callback (sendRely s packet ip port).1 waits)
              now).socket.relyPackets =
          some { ReliableMsg.new (s.relyFrame packet) ip port with
            lastSent := some now, attempts := 1 }) := by
  refine ⟨rfl, rfl, ?_, ?_⟩
  · simp [relyFrame, Packet.writeUint16, Packet.writeBool, Packet.writeUint8, Packet.append,
      Packet.empty]
  · intro env policy callback waits now hfree hcb hwait hpol
    have hq : Map.find? s.nextRelyMsgId (sendRely s packet ip port).1.relyPackets =
        some (ReliableMsg.new (s.relyFrame packet) ip port) := by
      have hc : Map.count s.nextRelyMsgId s.relyPackets = false :=
        (Map.count_eq_false_iff _ _).2 hfree
      simp only [sendRely, Map.insert, hc]
      exact Map.find?_insertSorted_self _ _ _ hfree
    have hk := ticksWith_keeps_waiting env policy callback hcb s.nextRelyMsgId _ waits _ hq hwait
    refine ⟨hk, ?_⟩
    intro hd
    obtain ⟨h1, _, h3⟩ := (updateWith_queue env policy callback _ now
      (fun f hf id t _ => hcb f hf id t)).1 hd
    have htry := trySend_of_resend policy now _ hpol
    constructor
    · rw [h3, (resendLoopWith_eq policy now _).2]
      exact List.mem_append_right _ (resendLoop_sends policy now _ _ _ hk hpol)
    · rw [h1, (resendLoopWith_eq policy now _).1]
      have := resendLoop_find? policy now _ _ _ hk (by rw [htry])
      rw [htry] at this
      exact this

/-- C7, instance of the amended statement, under a policy that waits until time 10: nothing is
written by `sendRely`; after the ticks at 3 and 7 the message is still queued as entered; the
tick at 12 writes the frame. -/
theorem sendRely_defers_first_attempt_witness :
    (sendRely exampleSocket exampleBody 200 2).2 = [] ∧
    Map.find? 6 (ticksWith exampleConsts exampleLatePolicy none
        (sendRely exampleSocket exampleBody 200 2).1 [3, 7]).relyPackets =
      some (ReliableMsg.new ⟨[0, 7, 1, 0, 6, 1, 2, 3], 0, true⟩ 200 2) ∧
    (⟨[0, 7, 1, 0, 6, 1, 2, 3], 200, 2⟩ : Datagram) ∈
      (updateWith exampleConsts exampleLatePolicy none
        (ticksWith exampleConsts exampleLatePolicy none
          (sendRely exampleSocket exampleBody 200 2).1 [3, 7]) 12).sent :=
  ⟨(sendRely_defers_first_attempt exampleSocket exampleBody 200 2).1,
    ((sendRely_defers_first_attempt exampleSocket exampleBody 200 2).2.2.2 exampleConsts
      exampleLatePolicy none [3, 7] 12 (by decide) (fun f hf => by cases hf) (by decide)
      (by decide)).1,
    (((sendRely_defers_first_attempt exampleSocket exampleBody 200 2).2.2.2 exampleConsts
      exampleLatePolicy none [3, 7] 12 (by decide) (fun f hf => by cases hf) (by decide)
      (by decide)).2 (by decide)).1⟩

/-! ## C8: reliable send, queue and counter -/

/-- C8, counterexample. The queue already holds an entry under id 5 and the counter stands
at 5: after `sendRely` the entry under 5 is the old one, not the new frame. -/
theorem sendRely_occupied_id_counterexample :
    exampleCollidingSocket.nextRelyMsgId = 5 ∧
    Map.find? 5 (sendRely exampleCollidingSocket exampleBody 200 2).1.relyPackets =
      Map.find? 5 exampleCollidingSocket.relyPackets ∧
    Map.find? 5 (sendRely exampleCollidingSocket exampleBody 200 2).1.relyPackets ≠
      some (ReliableMsg.new (exampleCollidingSocket.relyFrame exampleBody) 200 2) := by
  decide

/-- C8, amended. When the retransmission queue holds no entry under the current counter value,
`sendRely` leaves under that id the frame (own id, reliable, id) followed by the body,
addressed to the destination, keeps every other entry, and advances the counter by one modulo
`2 ^ 16`. -/
theorem sendRely_enqueues_under_counter (s : UDPSocket) (packet : Packet) (ip port : Nat)
    (hfree : Map.find? s.nextRelyMsgId s.relyPackets = none) :
    Map.find? s.nextRelyMsgId (sendRely s packet ip port).1.relyPackets =
      some (ReliableMsg.new (s.relyFrame packet) ip port) ∧
    (ReliableMsg.new (s.relyFrame packet) ip port).packet.data =
      [s.ownId / 256 % 256, s.ownId % 256, 1, s.nextRelyMsgId / 256 % 256, s.nextRelyMsgId % 256]
        ++ packet.data ∧
    (ReliableMsg.new (s.relyFrame packet) ip port).ip = ip ∧
    (ReliableMsg.new (s.relyFrame packet) ip port).port = port ∧
    (∀ k, k ≠ s.nextRelyMsgId →
      Map.find? k (sendRely s packet ip port).1.relyPackets = Map.find? k s.relyPackets) ∧
    (sendRely s packet ip port).1.nextRelyMsgId = (s.nextRelyMsgId + 1) % 2 ^ 16 := by
  have hc : Map.count s.nextRelyMsgId s.relyPackets = false := (Map.count_eq_false_iff _ _).2 hfree
  refine ⟨?_, ?_, rfl, rfl, ?_, rfl⟩
  · simp only [sendRely, Map.insert, hc]
    exact Map.find?_insertSorted_self _ _ _ hfree
  · simp [ReliableMsg.new, relyFrame, Packet.writeUint16, Packet.writeBool, Packet.writeUint8,
      Packet.append, Packet.empty]
  · intro k hk
    simp only [sendRely, Map.insert, hc]
    exact Map.find?_insertSorted_ne _ _ _ _ hk

/-- C8, instance of the amended statement: counter at 65535, queue holding only id 5; the frame
is stored under 65535 and the counter wraps to 0. -/
theorem sendRely_enqueues_under_counter_witness :
    Map.find? 65535 (sendRely ⟨[], [(5, ReliableMsg.new exampleBody 100 1)], [], 7, 65535⟩
        exampleBody 200 2).1.relyPackets =
      some (ReliableMsg.new ⟨[0, 7, 1, 255, 255, 1, 2, 3], 0, true⟩ 200 2) ∧
    (sendRely ⟨[], [(5, ReliableMsg.new exampleBody 100 1)], [], 7, 65535⟩
        exampleBody 200 2).1.nextRelyMsgId = 0 :=
  ⟨(sendRely_enqueues_under_counter ⟨[], [(5, ReliableMsg.new exampleBody 100 1)], [], 7, 65535⟩
      exampleBody 200 2 (by decide)).1,
    (sendRely_enqueues_under_counter ⟨[], [(5, ReliableMsg.new exampleBody 100 1)], [], 7, 65535⟩
      exampleBody 200 2 (by decide)).2.2.2.2.2⟩

/-! ## C9: teardown -/

/-- C9. `unbind` writes one datagram per connection, in table order, to that connection's
address: the unreliable frame (own id, not reliable, message id 0) with body `Disconnect`
and the own id as it was before the call. Afterwards table, queue and ledger are empty and the
own id is 0. A second `unbind` writes nothing and returns the same state. -/
theorem unbind_broadcasts_clears_idempotent (s : UDPSocket) :
    (unbind s).2 = s.connections.map (fun e =>
      (⟨(s.plainFrame s.disconnectPacket).data, e.2.ip, e.2.port⟩ : Datagram)) ∧
    ((readHeader (Packet.received (s.plainFrame s.disconnectPacket).data)).packet.isValid = true ∧
      (readHeader (Packet.received (s.plainFrame s.disconnectPacket).data)).reply = false ∧
      (readHeader (Packet.received (s.plainFrame s.disconnectPacket).data)).type =
        MsgType.Disconnect ∧
      ((readHeader (Packet.received (s.plainFrame s.disconnectPacket).data)).packet.readUint16
        0).2 = s.ownId % 2 ^ 16) ∧
    (unbind s).1.connections = [] ∧ (unbind s).1.relyPackets = [] ∧
    (unbind s).1.confirmTimes = [] ∧ (unbind s).1.ownId = 0 ∧
    unbind (unbind s).1 = ((unbind s).1, []) := by
  refine ⟨?_, ?_, rfl, rfl, rfl, rfl, rfl⟩
  · simp [unbind, unbindLoop_eq_map]
  · rw [disconnectFrame_data]
    refine ⟨?_, ?_, ?_, ?_⟩
    · simp [readHeader, Packet.received, Packet.readUint16, Packet.readBool,
        Packet.readMsgType, Packet.checkSize]
    · simp [readHeader, Packet.received, Packet.readUint16, Packet.readBool,
        Packet.readMsgType, Packet.checkSize, Packet.byteAt]
    · simp [readHeader, Packet.received, Packet.readUint16, Packet.readBool,
        Packet.readMsgType, Packet.checkSize, Packet.byteAt, MsgType.toCode, MsgType.ofCode]
    · simp [readHeader, Packet.received, Packet.readUint16, Packet.readBool,
        Packet.readMsgType, Packet.checkSize, Packet.byteAt]
      omega

/-! ## C10: timeout eviction -/

/-- C11, counterexample. At time 100, with a timeout of 10: under the callback `ClientUDP`
installs, the server's timeout makes the callback tear the transport down and answer `false`,
and the ledger entry stamped at 95, still inside the window, is gone; under a callback that
only answers `false`, the entry stamped at 0, older than the timeout, is still there. -/
theorem update_stopped_ledger_counterexample :
    ((9, (95 : Time)) ∈ ClientUDP.exampleStaleClient.socket.confirmTimes ∧
      (100 : Time) - 95 ≤ exampleConsts.NETWORK_TIMEOUT ∧
      (updateWith exampleConsts (fun _ _ => Verdict.wait)
        (some (ClientUDP.timeoutCallback 0 ClientUDP.exampleStaleClient))
        ClientUDP.exampleStaleClient.socket 100).socket.confirmTimes = []) ∧
    ((65541, (0 : Time)) ∈
        (updateWith exampleConsts (fun _ _ => Verdict.wait)
          (some (Callback.ofAnswer (fun _ => false))) exampleStaleSocket 100).socket.confirmTimes ∧
      (100 : Time) - 0 > exampleConsts.NETWORK_TIMEOUT) := by
  decide

/-- C11, amended. The callback leaves the dedup ledger alone whenever it answers `true`. When
`update` is not cut short, the ledger afterwards holds no entry older than `NETWORK_TIMEOUT`,
and every entry that is not older is still there with its timestamp. When the callback
answers `false`, `update` returns before the purge: the transport is exactly as that call of
the callback left it, a call that was handed the ledger as it was before `update`. So the
ledger is empty after the callback of `ClientUDP`, which has unbound the socket, and unchanged
after a callback that only answers. An `update` whose callback is unset, or answers `true`
whenever it is called, is not cut short. -/
theorem updateWith_purges_ledger_unless_stopped (env : Consts) (policy : Policy)
    (callback : Option Callback) (s : UDPSocket) (now : Time)
    (hquiet : ∀ f, callback = some f → ∀ id t, (f id t).answer = true →
      (f id t).socket.confirmTimes = t.confirmTimes) :
    ((updateWith env policy callback s now).completed = true →
      (∀ e ∈ (updateWith env policy callback s now).socket.confirmTimes,
        ¬ (now - e.2 > env.NETWORK_TIMEOUT)) ∧
      (∀ e ∈ s.confirmTimes, now - e.2 ≤ env.NETWORK_TIMEOUT →
        e ∈ (updateWith env policy callback s now).socket.confirmTimes) ∧
      (∀ k t, Map.find? k s.confirmTimes = some t → now - t ≤ env.NETWORK_TIMEOUT →
        Map.find? k (updateWith env policy callback s now).socket.confirmTimes = some t)) ∧
    ((updateWith env policy callback s now).completed = false →
      ∃ f id t, callback = some f ∧ (f id t).answer = false ∧
        t.confirmTimes = s.confirmTimes ∧
        (updateWith env policy callback s now).socket = (f id t).socket) ∧
    (∀ serverId c, callback = some (ClientUDP.timeoutCallback serverId c) →
      (updateWith env policy callback s now).completed = false →
      (updateWith env policy callback s now).socket.confirmTimes = []) ∧
    (∀ g, callback = some (Callback.ofAnswer g) →
      (updateWith env policy callback s now).completed = false →
      (updateWith env policy callback s now).socket.confirmTimes = s.confirmTimes) ∧
    ((∀ f, callback = some f → ∀ id t, (f id t).answer = true) →
      (updateWith env policy callback s now).completed = true) := by
  have hmem := evictLoopWith_member (fun t => t.confirmTimes) (fun _ _ => rfl) env callback now
    hquiet s.connections [] s
  have hstop : (updateWith env policy callback s now).completed = false →
      ∃ f id t, callback = some f ∧ (f id t).answer = false ∧
        t.confirmTimes = s.confirmTimes ∧
        (updateWith env policy callback s now).socket = (f id t).socket := by
    intro hd
    rw [updateWith_completed] at hd
    rw [updateWith_of_stopped env policy callback s now hd]
    exact hmem.2 hd
  refine ⟨?_, hstop, ?_, ?_, fun h => by
    rw [updateWith_completed]
    exact evictLoopWith_completed env callback now h s.connections [] s⟩
  · intro hd
    rw [updateWith_completed] at hd
    have hled := hmem.1 hd
    simp only at hled
    rw [updateWith_of_completed env policy callback s now hd]
    simp only [hled]
    refine ⟨?_, ?_, ?_⟩
    · intro e he
      have := (List.mem_filter.1 he).2
      simpa using this
    · intro e he hle
      exact List.mem_filter.2 ⟨he, by simpa using hle⟩
    · intro k t hk hle
      exact Map.find?_filter_of_pos _ k t _ hk (by simpa using hle)
  · intro serverId c hcb hd
    obtain ⟨f, id, t, h1, h2, _, h4⟩ := hstop hd
    rw [hcb] at h1
    cases h1
    rw [h4, ClientUDP.timeoutCallback_false serverId c id t h2]
  · intro g hcb hd
    obtain ⟨f, id, t, h1, _, h3, h4⟩ := hstop hd
    rw [hcb] at h1
    cases h1
    rw [h4]
    exact h3

/-- C11, instance of the amended statement: under a callback that answers `true` the stale
entry is purged; under the callback of `ClientUDP` the stopped update leaves an empty ledger. -/
theorem updateWith_purges_ledger_unless_stopped_witness :
    (∀ e ∈ (updateWith exampleConsts (fun _ _ => Verdict.wait)
        (some (Callback.ofAnswer (fun _ => true))) exampleStaleSocket 100).socket.confirmTimes,
      ¬ ((100 : Time) - e.2 > exampleConsts.NETWORK_TIMEOUT)) ∧
    (updateWith exampleConsts (fun _ _ => Verdict.wait)
      (some (ClientUDP.timeoutCallback 0 ClientUDP.exampleStaleClient))
      ClientUDP.exampleStaleClient.socket 100).socket.confirmTimes = [] :=
  ⟨((updateWith_purges_ledger_unless_stopped exampleConsts (fun _ _ => Verdict.wait)
      (some (Callback.ofAnswer (fun _ => true))) exampleStaleSocket 100
      (fun f hf id t _ => by cases hf; rfl)).1 (by decide)).1,
    (updateWith_purges_ledger_unless_stopped exampleConsts (fun _ _ => Verdict.wait)
      (some (ClientUDP.timeoutCallback 0 ClientUDP.exampleStaleClient))
      ClientUDP.exampleStaleClient.socket 100
      (fun f hf id t ha => by
        cases hf
        rw [ClientUDP.timeoutCallback_true 0 ClientUDP.exampleStaleClient id t ha])).2.2.1
      0 ClientUDP.exampleStaleClient rfl (by decide)⟩

/-! ## C12: retransmission termination -/

/-- C12, counterexample. Message 5 is in the queue and the server has timed out. Under a
callback that only answers `false`, the tick makes no `trySend` call and writes nothing,
and message 5 is still queued. Under the callback `ClientUDP` installs, the tick makes no
`trySend` call either, and message 5 is gone from the queue without any attempt having
reported the policy exhausted. -/
theorem update_stopped_skips_resend_counterexample :
    ((Map.find? 5 exampleStaleSocket.relyPackets).isSome = true ∧
      (updateWith exampleConsts (fun _ _ => Verdict.resend)
        (some (Callback.ofAnswer (fun _ => false))) exampleStaleSocket 100).trySends = [] ∧
      (updateWith exampleConsts (fun _ _ => Verdict.resend)
        (some (Callback.ofAnswer (fun _ => false))) exampleStaleSocket 100).sent = [] ∧
      (Map.find? 5 (updateWith exampleConsts (fun _ _ => Verdict.resend)
        (some (Callback.ofAnswer (fun _ => false))) exampleStaleSocket
        100).socket.relyPackets).isSome = true) ∧
    ((Map.find? 5 ClientUDP.exampleStaleClient.socket.relyPackets).isSome = true ∧
      (updateWith exampleConsts (fun _ _ => Verdict.resend)
        (some (ClientUDP.timeoutCallback 0 ClientUDP.exampleStaleClient))
        ClientUDP.exampleStaleClient.socket 100).trySends = [] ∧
      (updateWith exampleConsts (fun _ _ => Verdict.resend)
        (some (ClientUDP.timeoutCallback 0 ClientUDP.exampleStaleClient))
        ClientUDP.exampleStaleClient.socket 100).socket.relyPackets = []) := by
  decide

/-- C12, amended. The callback leaves the retransmission queue alone when it answers `true`
and enqueues nothing when it answers `false`. In an `update` that is not cut short, the resend
loop calls `trySend` exactly once for each queued message, in queue order; what the tick writes
after the callbacks is the output of those calls, one after the other, and the queue
afterwards is the one the resend loop computes: a message whose call reported `false`
(policy exhausted) is gone, and no later `update` calls `trySend` for its id again, while a
message whose call reported `true` stays, as the call left it. An `update` cut short by the
callback makes no `trySend` call and leaves the transport, queue included, exactly as the call
of the callback that answered `false` left it: the queue is empty after the callback of
`ClientUDP` and unchanged after a callback that only answers. An `update` whose callback is
unset, or answers `true` whenever it is called, is not cut short. -/
theorem updateWith_resends_once_and_drops_exhausted (env : Consts) (policy : Policy)
    (callback : Option Callback) (s : UDPSocket) (now : Time)
    (hquiet : ∀ f, callback = some f → ∀ id t, (f id t).answer = true →
      (f id t).socket.relyPackets = t.relyPackets)
    (hnonew : ∀ f, callback = some f → ∀ id t, (f id t).answer = false →
      ∀ k ∈ (f id t).socket.relyPackets.map Prod.fst, k ∈ t.relyPackets.map Prod.fst)
    (hkeys : (s.relyPackets.map Prod.fst).Nodup) :
    ((updateWith env policy callback s now).completed = true →
      (updateWith env policy callback s now).trySends =
        s.relyPackets.map (fun e => (e.1, (e.2.trySend policy now).1)) ∧
      ((updateWith env policy callback s now).trySends.map Prod.fst).Nodup ∧
      (updateWith env policy callback s now).sent =
        (evictLoopWith env callback now [] s s.connections).sent ++
          (s.relyPackets.map (fun e => (e.2.trySend policy now).2.2)).flatten ∧
      (updateWith env policy callback s now).socket.relyPackets =
        (resendLoop policy now s.relyPackets).1 ∧
      (∀ id m, (id, m) ∈ s.relyPackets → (m.trySend policy now).1 = false →
        Map.find? id (updateWith env policy callback s now).socket.relyPackets = none ∧
        ∀ times, id ∉ (ticksTrySends env policy callback
          (updateWith env policy callback s now).socket times).map Prod.fst) ∧
      (∀ id m, (id, m) ∈ s.relyPackets → (m.trySend policy now).1 = true →
        Map.find? id (updateWith env policy callback s now).socket.relyPackets =
          some (m.trySend policy now).2.1)) ∧
    ((updateWith env policy callback s now).completed = false →
      (updateWith env policy callback s now).trySends = [] ∧
      ∃ f id t, callback = some f ∧ (f id t).answer = false ∧
        t.relyPackets = s.relyPackets ∧
        (updateWith env policy callback s now).socket = (f id t).socket) ∧
    (∀ serverId c, callback = some (ClientUDP.timeoutCallback serverId c) →
      (updateWith env policy callback s now).completed = false →
      (updateWith env policy callback s now).socket.relyPackets = []) ∧
    (∀ g, callback = some (Callback.ofAnswer g) →
      (updateWith env policy callback s now).completed = false →
      (updateWith env policy callback s now).socket.relyPackets = s.relyPackets) ∧
    ((∀ f, callback = some f → ∀ id t, (f id t).answer = true) →
      (updateWith env policy callback s now).completed = true) := by
  have hu := updateWith_queue env policy callback s now hquiet
  refine ⟨?_, hu.2, ?_, ?_, fun h => by
    rw [updateWith_completed]
    exact evictLoopWith_completed env callback now h s.connections [] s⟩
  · intro hd
    obtain ⟨hq, ht, hs⟩ := hu.1 hd
    have hq' : (updateWith env policy callback s now).socket.relyPackets =
        (resendLoop policy now s.relyPackets).1 := by
      rw [hq, (resendLoopWith_eq policy now s.relyPackets).1]
    have hkeys' : ((resendLoop policy now s.relyPackets).1.map Prod.fst).Nodup :=
      (resendLoop_keys_sublist policy now s.relyPackets).nodup hkeys
    have hids : (s.relyPackets.map (fun e => (e.1, (e.2.trySend policy now).1))).map Prod.fst =
        s.relyPackets.map Prod.fst := by
      simp [List.map_map, Function.comp]
    refine ⟨?_, ?_, ?_, hq', ?_, ?_⟩
    · rw [ht, (resendLoopWith_trySends policy now s.relyPackets).1]
    · rw [ht, (resendLoopWith_trySends policy now s.relyPackets).1, hids]
      exact hkeys
    · rw [hs, (resendLoopWith_trySends policy now s.relyPackets).2.1]
    · intro id m hm hfalse
      have hgone : Map.find? id (updateWith env policy callback s now).socket.relyPackets
          = none := by
        rw [hq', Map.find?_eq_none_iff]
        intro hmem
        obtain ⟨e, he, hfst⟩ := List.mem_map.1 hmem
        obtain ⟨id', m'⟩ := e
        simp only at hfst
        subst hfst
        obtain ⟨m0, h1, h2, _⟩ := resendLoop_mem policy now s.relyPackets id' m' he
        have h3 := Map.find?_of_mem_of_nodup s.relyPackets id' m0 hkeys h1
        have h4 := Map.find?_of_mem_of_nodup s.relyPackets id' m hkeys hm
        rw [h3] at h4
        cases h4
        rw [hfalse] at h2
        exact Bool.false_ne_true h2
      refine ⟨hgone, ?_⟩
      intro times hmem
      have := ticksTrySends_keys env policy callback hquiet hnonew times _ id hmem
      exact (Map.find?_eq_none_iff _ _).1 hgone this
    · intro id m hm htrue
      rw [hq']
      exact Map.find?_of_mem_of_nodup _ id _ hkeys' (resendLoop_keeps policy now _ id m hm htrue)
  · intro serverId c hcb hd
    obtain ⟨_, f, id, t, h1, h2, _, h4⟩ := hu.2 hd
    rw [hcb] at h1
    cases h1
    rw [h4, ClientUDP.timeoutCallback_false serverId c id t h2]
  · intro g hcb hd
    obtain ⟨_, f, id, t, h1, _, h3, h4⟩ := hu.2 hd
    rw [hcb] at h1
    cases h1
    rw [h4]
    exact h3

/-- C12, instance of the amended statement, under a policy that sends a message once and gives
up on it at the next tick and under the callback of `ClientUDP`. At time 4 message 5 gets one
`trySend`, which reports `true` and sends it: it stays queued with one attempt recorded. At
time 5 it gets one `trySend`, which reports `false`: it is gone from the queue, and the ticks
at 6 and 7 make no call for it. -/
theorem updateWith_resends_once_and_drops_exhausted_witness :
    ((updateWith exampleConsts exampleOncePolicy
        (some (ClientUDP.timeoutCallback 9 ClientUDP.exampleClient)) exampleSocket
        4).trySends = [(5, true)] ∧
      Map.find? 5 (updateWith exampleConsts exampleOncePolicy
        (some (ClientUDP.timeoutCallback 9 ClientUDP.exampleClient)) exampleSocket
        4).socket.relyPackets = some ⟨⟨[0, 7, 1, 0, 5, 9], 0, true⟩, 100, 1, some 4, 1⟩) ∧
    ((updateWith exampleConsts exampleOncePolicy
        (some (ClientUDP.timeoutCallback 9 ClientUDP.exampleClient)) exampleSentOnceSocket
        5).trySends = [(5, false)] ∧
      Map.find? 5 (updateWith exampleConsts exampleOncePolicy
        (some (ClientUDP.timeoutCallback 9 ClientUDP.exampleClient)) exampleSentOnceSocket
        5).socket.relyPackets = none ∧
      5 ∉ (ticksTrySends exampleConsts exampleOncePolicy
        (some (ClientUDP.timeoutCallback 9 ClientUDP.exampleClient))
        (updateWith exampleConsts exampleOncePolicy
          (some (ClientUDP.timeoutCallback 9 ClientUDP.exampleClient)) exampleSentOnceSocket
          5).socket [6, 7]).map Prod.fst) :=
  have hquiet : ∀ f, some (ClientUDP.timeoutCallback 9 ClientUDP.exampleClient) = some f →
      ∀ id t, (f id t).answer = true → (f id t).socket.relyPackets = t.relyPackets :=
    fun f hf id t ha => by
      cases hf
      rw [ClientUDP.timeoutCallback_true 9 ClientUDP.exampleClient id t ha]
  have hnonew : ∀ f, some (ClientUDP.timeoutCallback 9 ClientUDP.exampleClient) = some f →
      ∀ id t, (f id t).answer = false →
      ∀ k ∈ (f id t).socket.relyPackets.map Prod.fst, k ∈ t.relyPackets.map Prod.fst :=
    fun f hf id t ha k hk => by
      cases hf
      rw [ClientUDP.timeoutCallback_false 9 ClientUDP.exampleClient id t ha] at hk
      simp at hk
  have h0 := (updateWith_resends_once_and_drops_exhausted exampleConsts exampleOncePolicy
    (some (ClientUDP.timeoutCallback 9 ClientUDP.exampleClient)) exampleSocket 4
    hquiet hnonew (by decide)).1 (by decide)
  have h := (updateWith_resends_once_and_drops_exhausted exampleConsts exampleOncePolicy
    (some (ClientUDP.timeoutCallback 9 ClientUDP.exampleClient)) exampleSentOnceSocket 5
    hquiet hnonew (by decide)).1 (by decide)
  ⟨⟨h0.1.trans (by decide),
      (h0.2.2.2.2.2 5 _ (List.mem_cons_self _ _) (by decide)).trans (by decide)⟩,
    ⟨h.1.trans (by decide), (h.2.2.2.2.1 5 _ (List.mem_cons_self _ _) (by decide)).1,
      (h.2.2.2.2.1 5 _ (List.mem_cons_self _ _) (by decide)).2 [6, 7]⟩⟩

/-! ## C19: ledger timestamps -/

/-- C19, counterexample. `confirmed` for the pair (sender 1, message 5) at time 3 and again at
time 8: the second call reports a repeat and the ledger then holds 8, not 3. -/
theorem confirmed_restamps_counterexample :
    ∃ r1 r2, confirmed exampleSocket 3 5 1 = .ok r1 ∧ r1.1 = false ∧
      Map.find? (confirmId 1 5) r1.2.1.confirmTimes = some 3 ∧
      confirmed r1.2.1 8 5 1 = .ok r2 ∧ r2.1 = true ∧
      Map.find? (confirmId 1 5) r2.2.1.confirmTimes = some 8 :=
  ⟨_, _, rfl, by decide, by decide, rfl, by decide, by decide⟩

/-- C19, amended. The ledger value of a pair is the time of its latest confirmation: a call
of `confirmed` for a pair already in the ledger reports the repeat and stores the time of this
call. -/
theorem confirmed_stamps_latest_call (s : UDPSocket) (now : Time) (msgId senderId : Nat)
    (c : UDPConnection) (t : Time)
    (hknown : Map.find? senderId s.connections = some c)
    (hpresent : Map.find? (confirmId senderId msgId) s.confirmTimes = some t) :
    ∃ r, confirmed s now msgId senderId = .ok r ∧ r.1 = true ∧
      Map.find? (confirmId senderId msgId) r.2.1.confirmTimes = some now := by
  refine ⟨(Map.count (confirmId senderId msgId) s.confirmTimes,
    { s with confirmTimes := Map.assign (confirmId senderId msgId) now s.confirmTimes },
    [c.send (s.confirmPacket msgId)]), ?_, ?_, ?_⟩
  · simp only [confirmed, hknown]
  · simp [Map.count, hpresent]
  · exact Map.find?_assign_self _ _ _

/-- C19, instance of the amended statement: an entry stamped 0 is restamped 8. -/
theorem confirmed_stamps_latest_call_witness :
    ∃ r, confirmed exampleStaleSocket 8 5 1 = .ok r ∧ r.1 = true ∧
      Map.find? (confirmId 1 5) r.2.1.confirmTimes = some 8 :=
  confirmed_stamps_latest_call exampleStaleSocket 8 5 1 ⟨1, 100, 1, 0⟩ 0 (by decide) (by decide)

/-! ## C20: receive never throws -/

/-- C20. `receive` never throws: for every state and every datagram, malformed or well-formed,
of any type, from any address and with any claimed sender id, no keyed lookup
`_connections.at(senderId)` in `receive` or in `confirmed` fails; and `receive` returns a
value, given that `NETWORK_MAX_CLIENTS` is below the top of the 16-bit range of the id search. -/
theorem receive_never_throws (env : Consts) (s : UDPSocket) (now : Time)
    (incoming : Option Datagram) (senderId : Nat) :
    receive env s now incoming senderId ≠ .error Fault.outOfRange ∧
    (env.NETWORK_MAX_CLIENTS < 65535 → ∃ r, receive env s now incoming senderId = .ok r) := by
  rcases receive_returns_or_search_diverges env s now incoming senderId with h | ⟨h1, h2⟩
  · obtain ⟨r, hr⟩ := (isOk_iff _).1 h
    exact ⟨by rw [hr]; simp, fun _ => ⟨r, hr⟩⟩
  · refine ⟨by rw [h1]; simp, ?_⟩
    intro hmax
    obtain ⟨o, ho⟩ := findFreeId_returns env s.connections hmax 65536 1 (by omega) (by omega)
    rw [ho] at h2
    cases h2

/-- C20, instance: a `Connect` from a new address to a transport with every slot taken is
answered with a returned value. -/
theorem receive_never_throws_witness :
    ∃ r, receive exampleConsts exampleFullSocket 3 (some exampleConnect) 0 = .ok r :=
  (receive_never_throws exampleConsts exampleFullSocket 3 (some exampleConnect) 0).2 (by decide)

end UDPSocket

namespace ClientUDP


theorem disconnect_sent (serverId : Nat) (c : ClientUDP) :
    ∀ d ∈ (disconnect serverId c).sent,
      d.data = (c.socket.plainFrame c.socket.disconnectPacket).data := by
  intro d hd
  simp only [disconnect, List.mem_append] at hd
  rcases hd with hd | hd
  · cases hs : Map.find? serverId c.socket.connections with
    | none => simp [UDPSocket.sendTo, hs] at hd
    | some sc =>
      simp [UDPSocket.sendTo, hs, UDPSocket.send] at hd
      rw [hd]
  · rw [UDPSocket.unbind_sent] at hd
    obtain ⟨e, _, he⟩ := List.mem_map.1 hd
    rw [← he]

/-! ## C13: frames before the handshake completes -/

/-- C13. A session without an own id, and a frame for which `receive` returns a type other
than `Init` and `Empty`: `process` returns `true`, calls no handler, does not disconnect (the
working flag is as before and the transport is as `receive` left it, with nothing written
beyond what `receive` wrote), and the own id stays 0. -/
theorem process_ignores_frames_before_init (env : Consts) (serverId : Nat) (c : ClientUDP)
    (now : Time) (incoming : Option Datagram) (senderId targetId : Nat) (r : UDPSocket.Received)
    (hown : c.socket.ownId = 0)
    (hrecv : UDPSocket.receive env c.socket now incoming senderId = .ok r)
    (hinit : r.type ≠ MsgType.Init) (hempty : r.type ≠ MsgType.Empty) :
    ∃ p, process env serverId c now incoming senderId targetId = .ok p ∧ p.result = true ∧
      p.handlers = [] ∧ p.client.working = c.working ∧ p.client.socket = r.socket ∧
      p.sent = r.sent ∧ p.client.socket.ownId = 0 := by
  have hid : r.socket.ownId = 0 :=
    (UDPSocket.receive_shape env c.socket now incoming senderId r hrecv).1.trans hown
  refine ⟨⟨true, { c with socket := r.socket }, [], r.sent⟩, ?_, rfl, rfl, rfl, rfl, rfl, hid⟩
  simp [process, hrecv, hempty, hinit, connected, hid]

/-- C13, instance: a Connecting session receives a `ServerUpdate` frame from the server. -/
theorem process_ignores_frames_before_init_witness :
    ∃ p, process UDPSocket.exampleConsts 0 exampleConnecting 3 (some exampleServerUpdate) 0 0 =
        .ok p ∧ p.result = true ∧ p.handlers = [] ∧ p.client.socket.ownId = 0 :=
  match process_ignores_frames_before_init UDPSocket.exampleConsts 0 exampleConnecting 3
    (some exampleServerUpdate) 0 0
    ⟨MsgType.ServerUpdate, ⟨[(0, ⟨0, 100, 1, 3⟩)], [], [], 0, 1⟩,
      ⟨[0, 0, 0, 0, 0, 0, 4, 8, 8], 7, true⟩, 0, []⟩
    (by decide) rfl (by decide) (by decide) with
  | ⟨p, h1, h2, h3, _, _, _, h7⟩ => ⟨p, h1, h2, h3, h7⟩

/-! ## C14: handshake completion -/

/-- C14. An `Init` frame. When two bytes follow the header, `process` sets the own id to the
16-bit value `K` they encode and calls `processInit` once, with the packet positioned after
them, so that `connected()` holds afterwards exactly when `K` is not 0. When fewer than two
bytes follow, the own id is unchanged and no handler is called. `process` returns `true` in
both cases. -/
theorem process_init_adopts_id (env : Consts) (serverId : Nat) (c : ClientUDP) (now : Time)
    (d : Datagram) (senderId targetId : Nat)
    (hvalid : (readHeader (Packet.received d.data)).packet.isValid = true)
    (htype : (readHeader (Packet.received d.data)).type = MsgType.Init) :
    ∃ p, process env serverId c now (some d) senderId targetId = .ok p ∧ p.result = true ∧
      ((readHeader (Packet.received d.data)).packet.checkSize 2 = true →
        p.client.socket.ownId =
          (readHeader (Packet.received d.data)).packet.byteAt
              (readHeader (Packet.received d.data)).packet.readPos * 256 +
            (readHeader (Packet.received d.data)).packet.byteAt
              ((readHeader (Packet.received d.data)).packet.readPos + 1) ∧
        p.handlers = [Handler.processInit
          { (readHeader (Packet.received d.data)).packet with
            readPos := (readHeader (Packet.received d.data)).packet.readPos + 2 }] ∧
        (p.client.connected = true ↔
          (readHeader (Packet.received d.data)).packet.byteAt
              (readHeader (Packet.received d.data)).packet.readPos * 256 +
            (readHeader (Packet.received d.data)).packet.byteAt
              ((readHeader (Packet.received d.data)).packet.readPos + 1) ≠ 0)) ∧
      ((readHeader (Packet.received d.data)).packet.checkSize 2 = false →
        p.client.socket.ownId = c.socket.ownId ∧ p.handlers = []) := by
  obtain ⟨r, hr, ht, hp, ho⟩ := UDPSocket.receive_init env c.socket now d senderId hvalid htype
  cases hsize : (readHeader (Packet.received d.data)).packet.checkSize 2 with
  | true =>
    refine ⟨⟨true, { c with socket := r.socket.setId (r.packet.readUint16 targetId).2 },
      [Handler.processInit (r.packet.readUint16 targetId).1], r.sent⟩, ?_, rfl, ?_, ?_⟩
    · simp [process, hr, ht, hp, Packet.readUint16, hsize, hvalid]
    · intro _
      refine ⟨?_, ?_, ?_⟩
      · simp [UDPSocket.setId, hp, Packet.readUint16, hsize]
      · simp [hp, Packet.readUint16, hsize]
      · simp [connected, UDPSocket.setId, hp, Packet.readUint16, hsize]
        tauto
    · intro h; cases h
  | false =>
    refine ⟨⟨true, { c with socket := r.socket }, [], r.sent⟩, ?_, rfl, ?_, ?_⟩
    · simp [process, hr, ht, hp, Packet.readUint16, hsize, hvalid]
    · intro h; cases h
    · intro _
      exact ⟨ho, rfl⟩

/-- C14, instance: an `Init` frame assigning id 4 to a Connecting session, and one whose body
is too short to hold an id. -/
theorem process_init_adopts_id_witness :
    (∃ p, process UDPSocket.exampleConsts 0 exampleConnecting 3 (some exampleInit) 0 0 = .ok p ∧
      p.result = true ∧ p.client.socket.ownId = 4 ∧
      p.handlers = [Handler.processInit ⟨[0, 0, 1, 0, 1, 0, 1, 0, 4, 7], 9, true⟩]) ∧
    (∃ p, process UDPSocket.exampleConsts 0 exampleConnecting 3 (some exampleShortInit) 0 0 =
        .ok p ∧ p.result = true ∧ p.client.socket.ownId = 0 ∧ p.handlers = []) :=
  ⟨match process_init_adopts_id UDPSocket.exampleConsts 0 exampleConnecting 3 exampleInit 0 0
      (by decide) (by decide) with
    | ⟨p, h1, h2, h3, _⟩ => ⟨p, h1, h2, (h3 (by decide)).1, (h3 (by decide)).2.1⟩,
   match process_init_adopts_id UDPSocket.exampleConsts 0 exampleConnecting 3 exampleShortInit
      0 0 (by decide) (by decide) with
    | ⟨p, h1, h2, _, h4⟩ => ⟨p, h1, h2, (h4 (by decide)).1, (h4 (by decide)).2⟩⟩

/-! ## C15: disconnect notification -/

/-- C15, counterexample. `disconnect` on the Connected example session writes two datagrams
to the server, both with the reliable byte 0 and message id 0; the message-id counter is where
it was and the retransmission queue is empty afterwards. -/
theorem disconnect_unreliable_counterexample :
    (disconnect 0 exampleClient).sent =
      [⟨[0, 4, 0, 0, 0, 0, 2, 0, 4], 100, 1⟩, ⟨[0, 4, 0, 0, 0, 0, 2, 0, 4], 100, 1⟩] ∧
    (∀ d ∈ (disconnect 0 exampleClient).sent,
      (readHeader (Packet.received d.data)).reply = false ∧
      (readHeader (Packet.received d.data)).msgId = 0) ∧
    (disconnect 0 exampleClient).client.socket.nextRelyMsgId = exampleClient.socket.nextRelyMsgId ∧
    (disconnect 0 exampleClient).client.socket.relyPackets = [] := by
  decide

/-- C15, amended. `disconnect` notifies the server through the unreliable path: the
`Disconnect` frame carrying the own id is written to the server's address at once by `send`,
with the reliable flag clear and message id 0; every datagram `disconnect` writes is such a
frame, no message id is allocated, and the retransmission queue is empty afterwards. -/
theorem disconnect_sends_unreliable (serverId : Nat) (c : ClientUDP) (sc : UDPConnection)
    (hserver : Map.find? serverId c.socket.connections = some sc) :
    (⟨(c.socket.plainFrame c.socket.disconnectPacket).data, sc.ip, sc.port⟩ : Datagram) ∈
      (disconnect serverId c).sent ∧
    (∀ d ∈ (disconnect serverId c).sent,
      (readHeader (Packet.received d.data)).packet.isValid = true ∧
      (readHeader (Packet.received d.data)).reply = false ∧
      (readHeader (Packet.received d.data)).msgId = 0 ∧
      (readHeader (Packet.received d.data)).type = MsgType.Disconnect) ∧
    (disconnect serverId c).client.socket.nextRelyMsgId = c.socket.nextRelyMsgId ∧
    (disconnect serverId c).client.socket.relyPackets = [] := by
  refine ⟨?_, ?_, rfl, rfl⟩
  · simp [disconnect, UDPSocket.sendTo, hserver, UDPSocket.send]
  · intro d hd
    rw [disconnect_sent serverId c d hd]
    have h := UDPSocket.disconnectFrame_decodes c.socket
    exact ⟨h.1, h.2.1, h.2.2.1, h.2.2.2.1⟩

/-- C15, instance of the amended statement on the Connected example session. -/
theorem disconnect_sends_unreliable_witness :
    (⟨[0, 4, 0, 0, 0, 0, 2, 0, 4], 100, 1⟩ : Datagram) ∈ (disconnect 0 exampleClient).sent ∧
    (disconnect 0 exampleClient).client.socket.relyPackets = [] :=
  ⟨(disconnect_sends_unreliable 0 exampleClient ⟨0, 100, 1, 0⟩ (by decide)).1,
    (disconnect_sends_unreliable 0 exampleClient ⟨0, 100, 1, 0⟩ (by decide)).2.2.2⟩

/-! ## C16: graceful disconnect -/

/-- C16. A Connected session with own id `K` and the server registered under the server id:
after `disconnect` the session is Disconnected (`isWorking()` and `connected()` are false, the
own id is 0), table, queue and ledger are empty, a `Disconnect` frame has gone to the server's
address, and every frame written carries target id `K`. -/
theorem disconnect_leaves_session_disconnected (serverId : Nat) (c : ClientUDP) (K : Nat)
    (sc : UDPConnection)
    (hown : c.socket.ownId = K) (hconnected : c.connected = true) (hbits : K < 2 ^ 16)
    (hserver : Map.find? serverId c.socket.connections = some sc) :
    (disconnect serverId c).client.isWorking = false ∧
    (disconnect serverId c).client.connected = false ∧
    (disconnect serverId c).client.socket.ownId = 0 ∧
    (disconnect serverId c).client.socket.connections = [] ∧
    (disconnect serverId c).client.socket.relyPackets = [] ∧
    (disconnect serverId c).client.socket.confirmTimes = [] ∧
    (∃ d ∈ (disconnect serverId c).sent, d.ip = sc.ip ∧ d.port = sc.port) ∧
    (∀ d ∈ (disconnect serverId c).sent,
      (readHeader (Packet.received d.data)).packet.isValid = true ∧
      (readHeader (Packet.received d.data)).type = MsgType.Disconnect ∧
      ((readHeader (Packet.received d.data)).packet.readUint16 0).2 = K) ∧
    K ≠ 0 := by
  refine ⟨rfl, rfl, rfl, rfl, rfl, rfl, ?_, ?_, ?_⟩
  · exact ⟨⟨(c.socket.plainFrame c.socket.disconnectPacket).data, sc.ip, sc.port⟩,
      by simp [disconnect, UDPSocket.sendTo, hserver, UDPSocket.send], rfl, rfl⟩
  · intro d hd
    rw [disconnect_sent serverId c d hd]
    have h := UDPSocket.disconnectFrame_decodes c.socket
    refine ⟨h.1, h.2.2.2.1, ?_⟩
    rw [h.2.2.2.2, hown]
    exact Nat.mod_eq_of_lt hbits
  · rw [← hown]
    simpa [connected] using hconnected

/-- C16, instance: the Connected example session with own id 4. -/
theorem disconnect_leaves_session_disconnected_witness :
    (disconnect 0 exampleClient).client.isWorking = false ∧
    (disconnect 0 exampleClient).client.connected = false ∧
    (∀ d ∈ (disconnect 0 exampleClient).sent,
      ((readHeader (Packet.received d.data)).packet.readUint16 0).2 = 4) :=
  ⟨(disconnect_leaves_session_disconnected 0 exampleClient 4 ⟨0, 100, 1, 0⟩ rfl (by decide)
      (by decide) (by decide)).1,
    (disconnect_leaves_session_disconnected 0 exampleClient 4 ⟨0, 100, 1, 0⟩ rfl (by decide)
      (by decide) (by decide)).2.1,
    fun d hd => ((disconnect_leaves_session_disconnected 0 exampleClient 4 ⟨0, 100, 1, 0⟩ rfl
      (by decide) (by decide) (by decide)).2.2.2.2.2.2.2.1 d hd).2.2⟩

/-! ## C17: draining the socket -/

/-- C17. The drain loop on a working session with a `Confirm` frame followed by a
`ServerUpdate` frame pending: the loop ends after the `Confirm`, for which `process` returns
`false`; the session is still working, no handler has been called, and the `ServerUpdate`
frame is still buffered. -/
theorem drain_stops_at_confirm :
    ∃ r, drain UDPSocket.exampleConsts 0 3 0 0 exampleClient
        [exampleServerConfirm, exampleServerUpdate] = .ok r ∧
      r.client.isWorking = true ∧ r.handlers = [] ∧ r.pending = [exampleServerUpdate] :=
  ⟨_, rfl, by decide, by decide, by decide⟩

/-! ## C18: a third party leaves -/

/-- C18, counterexample. A `Disconnect` frame naming peer 9 arrives from the server. The
Connecting session (own id 0, so 9 differs from it) calls no handler. The Connected session
dispatches it, and its connection table is no longer the one before the call: the server's
record carries the new receipt time. -/
theorem process_disconnect_other_counterexample :
    (∃ p, process UDPSocket.exampleConsts 0 exampleConnecting 3 (some examplePeerLeft) 0 0 =
        .ok p ∧ exampleConnecting.socket.ownId = 0 ∧ p.handlers = []) ∧
    (∃ p, process UDPSocket.exampleConsts 0 exampleClient 3 (some examplePeerLeft) 0 0 = .ok p ∧
      p.handlers = [Handler.processDisconnect 9] ∧
      p.client.socket.connections ≠ exampleClient.socket.connections) :=
  ⟨⟨_, rfl, by decide, by decide⟩, ⟨_, rfl, by decide, by decide⟩⟩

/-- C18, amended. `process` receives a `Disconnect` frame whose target id `K` is readable and
differs from the own id. In the Connected state it calls `processDisconnect` once, with `K`; in
the Connecting state it calls no handler. In both states `process` returns `true`, the own id
and the working flag are unchanged, and the connection table is the one before the call
except for one record: that of the frame's sender, whose `lastMsg` `receive` has set to the
time of receipt; every other record, and the sender's id and address, are as they were. -/
theorem process_disconnect_of_other_peer (env : Consts) (serverId : Nat) (c : ClientUDP)
    (now : Time) (incoming : Option Datagram) (senderId targetId : Nat) (r : UDPSocket.Received)
    (hrecv : UDPSocket.receive env c.socket now incoming senderId = .ok r)
    (htype : r.type = MsgType.Disconnect)
    (hread : r.packet.checkSize 2 = true)
    (hother : r.packet.byteAt r.packet.readPos * 256 + r.packet.byteAt (r.packet.readPos + 1) ≠
      c.socket.ownId) :
    ∃ p d c0, process env serverId c now incoming senderId targetId = .ok p ∧ p.result = true ∧
      (c.connected = true → p.handlers = [Handler.processDisconnect
        (r.packet.byteAt r.packet.readPos * 256 + r.packet.byteAt (r.packet.readPos + 1))]) ∧
      (c.connected = false → p.handlers = []) ∧
      p.client.socket.ownId = c.socket.ownId ∧ p.client.working = c.working ∧
      incoming = some d ∧
      Map.find? (readHeader (Packet.received d.data)).senderId c.socket.connections = some c0 ∧
      p.client.socket.connections = c.socket.connections.map (fun e =>
        if e.1 = (readHeader (Packet.received d.data)).senderId then
          (e.1, { c0 with lastMsg := now })
        else e) ∧
      Map.find? (readHeader (Packet.received d.data)).senderId p.client.socket.connections =
        some { c0 with lastMsg := now } ∧
      (∀ k, k ≠ (readHeader (Packet.received d.data)).senderId →
        Map.find? k p.client.socket.connections = Map.find? k c.socket.connections) := by
  obtain ⟨hid, hshape⟩ := UDPSocket.receive_shape env c.socket now incoming senderId r hrecv
  obtain ⟨d, c0, hinc, hknown, _, htable, _, _⟩ := hshape (by rw [htype]; decide)
    (by rw [htype]; decide) (by rw [htype]; decide) (by rw [htype]; decide)
  have hcount : Map.count (readHeader (Packet.received d.data)).senderId c.socket.connections
      = true := by simp [Map.count, hknown]
  have hmap : r.socket.connections = c.socket.connections.map (fun e =>
      if e.1 = (readHeader (Packet.received d.data)).senderId then
        (e.1, { c0 with lastMsg := now })
      else e) := by
    rw [htable]
    simp only [Map.assign, hcount, if_true]
    rfl
  have hself : Map.find? (readHeader (Packet.received d.data)).senderId r.socket.connections =
      some { c0 with lastMsg := now } := by
    rw [htable]
    exact Map.find?_assign_self _ _ _
  have hothers : ∀ k, k ≠ (readHeader (Packet.received d.data)).senderId →
      Map.find? k r.socket.connections = Map.find? k c.socket.connections := by
    intro k hk
    rw [htable]
    exact Map.find?_assign_ne _ _ _ _ hk
  have hother' : ¬ (r.packet.byteAt r.packet.readPos * 256 +
      r.packet.byteAt (r.packet.readPos + 1) = r.socket.ownId) := by
    rw [hid]; exact hother
  cases hc : c.connected with
  | true =>
    have hc1 : r.socket.ownId ≠ 0 := by
      rw [hid]; simpa [connected] using hc
    refine ⟨⟨true, { c with socket := r.socket }, [Handler.processDisconnect
      (r.packet.byteAt r.packet.readPos * 256 + r.packet.byteAt (r.packet.readPos + 1))],
      r.sent⟩, d, c0, ?_, rfl, fun _ => rfl, (fun h => by cases h), hid, rfl, hinc, hknown,
      hmap, hself, hothers⟩
    simp [process, hrecv, htype, connected, hc1, Packet.readUint16, hread, hother']
  | false =>
    have hc0 : r.socket.ownId = 0 := by
      rw [hid]; simpa [connected] using hc
    refine ⟨⟨true, { c with socket := r.socket }, [], r.sent⟩, d, c0, ?_, rfl,
      (fun h => by cases h), fun _ => rfl, hid, rfl, hinc, hknown, hmap, hself, hothers⟩
    simp [process, hrecv, htype, connected, hc0]

/-- C18, instance of the amended statement: the Connected example session is told at time 3
that peer 9 has left; the server's record is the only one, and its `lastMsg` becomes 3. -/
theorem process_disconnect_of_other_peer_witness :
    ∃ p, process UDPSocket.exampleConsts 0 exampleClient 3 (some examplePeerLeft) 0 0 = .ok p ∧
      p.result = true ∧ p.handlers = [Handler.processDisconnect 9] ∧
      p.client.socket.ownId = 4 ∧ p.client.working = true ∧
      p.client.socket.connections = [(0, ⟨0, 100, 1, 3⟩)] :=
  match process_disconnect_of_other_peer UDPSocket.exampleConsts 0 exampleClient 3
    (some examplePeerLeft) 0 0
    ⟨MsgType.Disconnect,
      { exampleClient.socket with connections := [(0, ⟨0, 100, 1, 3⟩)] },
      ⟨[0, 0, 0, 0, 0, 0, 2, 0, 9], 7, true⟩, 0, []⟩
    rfl rfl (by decide) (by decide) with
  | ⟨p, d, c0, h1, h2, h3, _, h5, h6, h7, h8, h9, _, _⟩ =>
    ⟨p, h1, h2, h3 (by decide), h5, h6, by
      cases h7
      have h8' : some (⟨0, 100, 1, 0⟩ : UDPConnection) = some c0 := h8
      cases h8'
      exact h9⟩

end ClientUDP

end Shuter
